import Mathlib

/-!
Verification of the invoice PDF text-extraction module
(`tracker/utils/pdf_text_extractor.py`).

The Python module is shallowly embedded below.  Strings are modelled as
`List Char` (the module only ever manipulates ASCII text), Python `float`
and `Decimal` values as `ℚ` (every numeric literal the module parses is a
finite decimal, which `ℚ` represents exactly), Python `int` as `ℤ`, and
Python `None`-able values as `Option`.  The regular expressions the module
applies are each translated into a dedicated character-level matcher with
the same semantics (leftmost match, greedy repetition, ordered alternation,
case-insensitive where the Python code passes `re.I`).  Loops whose Python
form is `while` with a moving cursor are translated with an explicit fuel
argument that is always initialised to at least the number of remaining
characters/lines, which makes the embedding total while never changing the
result on any input (every iteration consumes at least one character/line).
-/

namespace PdfExtract

/-! ## Character classes (Python `\d`, `\s`, `\w`, case folding) -/

/-- Python `\d` on ASCII input. -/
def isDigitC (c : Char) : Bool := '0' ≤ c && c ≤ '9'

/-- Python `\s` (ASCII whitespace, as produced by PDF text extraction). -/
def isWsC (c : Char) : Bool :=
  c = ' ' || c = '\t' || c = '\n' || c = '\r' || c = '\x0b' || c = '\x0c'

def isUpperC (c : Char) : Bool := 'A' ≤ c && c ≤ 'Z'

def isLowerC (c : Char) : Bool := 'a' ≤ c && c ≤ 'z'

/-- Python `\w` (word character) on ASCII input. -/
def isWordC (c : Char) : Bool := isUpperC c || isLowerC c || isDigitC c || c = '_'

/-- ASCII lower-casing, as `str.lower()` does on the module's input. -/
def lowerC (c : Char) : Char :=
  if isUpperC c then Char.ofNat (c.toNat + 32) else c

/-- ASCII upper-casing, as `str.upper()` does on the module's input. -/
def upperC (c : Char) : Char :=
  if isLowerC c then Char.ofNat (c.toNat - 32) else c

/-- Case-insensitive character equality (`re.I`). -/
def eqCI (a b : Char) : Bool := lowerC a = lowerC b

/-! ## Python string primitives -/

/-- `str.strip()` (both ends). -/
def trimChars (s : List Char) : List Char :=
  ((s.dropWhile isWsC).reverse.dropWhile isWsC).reverse

def lowerStr (s : List Char) : List Char := s.map lowerC

def upperStr (s : List Char) : List Char := s.map upperC

/-- Case-insensitive prefix test: does `s` start with `pat` (ignoring case)? -/
def startsCI : List Char → List Char → Bool
  | [], _ => true
  | _ :: _, [] => false
  | p :: ps, c :: cs => eqCI p c && startsCI ps cs

/-- Is `pat` a literal prefix of `s` (case sensitive)? -/
def startsLit : List Char → List Char → Bool
  | [], _ => true
  | _ :: _, [] => false
  | p :: ps, c :: cs => (p = c) && startsLit ps cs

/-- Newline normalisation: `replace('\r\n','\n').replace('\r','\n')`. -/
def normNl : List Char → List Char
  | [] => []
  | '\r' :: '\n' :: rest => '\n' :: normNl rest
  | '\r' :: rest => '\n' :: normNl rest
  | c :: rest => c :: normNl rest

/-- `str.split('\n')`. -/
def splitNl (s : List Char) : List (List Char) :=
  let rec go : List Char → List Char → List (List Char)
    | acc, [] => [acc.reverse]
    | acc, '\n' :: rest => acc.reverse :: go [] rest
    | acc, c :: rest => go (c :: acc) rest
  go [] s

/-- Collapse every run of whitespace into a single space
(`re.sub(r'\s+', ' ', s)` on an already stripped string). -/
def collapseWs : List Char → List Char
  | [] => []
  | [c] => [if isWsC c then ' ' else c]
  | c1 :: c2 :: rest =>
    if isWsC c1 && isWsC c2 then collapseWs (c2 :: rest)
    else (if isWsC c1 then ' ' else c1) :: collapseWs (c2 :: rest)

/-! ## Numeric tokens

The item parsers share one number shape, Python regex
`\d+(?:,\d+)*(?:\.\d+)?` (digits, optional comma groups, optional decimal
fraction).  Because everything after the first `\d+` is optional and each
piece is anchored by a distinct punctuation character, the greedy
maximal-munch scan below matches the Python backtracking semantics
exactly. -/

def natOfDigits (ds : List Char) : Nat :=
  ds.foldl (fun n c => 10 * n + (c.toNat - '0'.toNat)) 0

/-- Comma groups `(?:,\d+)*`, fuelled (fuel ≥ length of the input always
suffices: every iteration consumes at least two characters). -/
def commaGroups : Nat → List Char → List Char × List Char
  | 0, s => ([], s)
  | fuel + 1, s =>
    match s with
    | ',' :: rest =>
      let d := rest.takeWhile isDigitC
      if d.isEmpty then ([], s)
      else
        let (g, r) := commaGroups fuel (rest.drop d.length)
        (',' :: (d ++ g), r)
    | _ => ([], s)

/-- One numeric token starting at the head of `s` (the head must be a
digit): returns the matched text and the remaining input. -/
def numToken (s : List Char) : List Char × List Char :=
  let d1 := s.takeWhile isDigitC
  let r1 := s.drop d1.length
  let (g, r2) := commaGroups s.length r1
  match r2 with
  | '.' :: t =>
    let f := t.takeWhile isDigitC
    if f.isEmpty then (d1 ++ g, r2)
    else (d1 ++ g ++ '.' :: f, t.drop f.length)
  | _ => (d1 ++ g, r2)

/-- A natural number as a rational (kernel-reducible form of the cast). -/
def qOfNat (n : Nat) : ℚ := mkRat (Int.ofNat n) 1

/-- The exact value `i.f` (integer digits `i`, fraction digits `f`). -/
def qOfDigits (ip f : List Char) : ℚ :=
  mkRat (Int.ofNat (natOfDigits (ip ++ f))) (10 ^ f.length)

/-- Addition on `ℚ` in a kernel-reducible form (the library's `Rat.add` is
`@[irreducible]`); `qAdd_eq` below proves it equal to `+`. -/
def qAdd (a b : ℚ) : ℚ :=
  mkRat (a.num * (b.den : Int) + b.num * (a.den : Int)) (a.den * b.den)

/-- Subtraction on `ℚ` in a kernel-reducible form. -/
def qSub (a b : ℚ) : ℚ := qAdd a (-b)

/-- Halving on `ℚ` in a kernel-reducible form (for the midpoint rule). -/
def qHalf (a : ℚ) : ℚ := mkRat a.num (a.den * 2)

/-- Value of a matched numeric token: `float(text.replace(',', ''))`,
modelled exactly in `ℚ`. -/
def numVal (tok : List Char) : ℚ :=
  let t := tok.filter (fun c => c ≠ ',')
  let ip := t.takeWhile isDigitC
  let rest := t.drop ip.length
  match rest with
  | '.' :: f => qOfDigits ip f
  | _ => qOfNat (natOfDigits ip)

/-- The percentage test the item parser applies to the two characters after
a number: `rest[end:end+2].strip().startswith('%')`. -/
def pctAfter (after : List Char) : Bool :=
  match trimChars (after.take 2) with
  | '%' :: _ => true
  | _ => false

/-- `re.finditer(r'(\d+(?:,\d+)*(?:\.\d+)?)', s)` with the percentage
split: returns (plain numbers, percentages), each in order of appearance.
Fuelled; fuel ≥ length of the input always suffices. -/
def collectNums : Nat → List Char → List ℚ × List ℚ
  | 0, _ => ([], [])
  | _ + 1, [] => ([], [])
  | fuel + 1, c :: rest =>
    if isDigitC c then
      let (tok, after) := numToken (c :: rest)
      let q := numVal tok
      let (ns, ps) := collectNums fuel after
      if pctAfter after then (ns, q :: ps) else (q :: ns, ps)
    else collectNums fuel rest

/-- All plain (non-percentage) numbers on a line, in order. -/
def lineNumbers (s : List Char) : List ℚ :=
  (collectNums (s.length + 1) s).1

/-- All percentages on a line, in order (collected but unused downstream,
mirroring the Python code). -/
def linePercentages (s : List Char) : List ℚ :=
  (collectNums (s.length + 1) s).2

/-! ## The LineItem record and the number-role assignment -/

/-- A line item as built by both extractors (`dict` in Python):
`qty` is a Python `int`, `rate` and `value` are `Decimal`-or-`None`. -/
structure Item where
  description : String
  code : Option String
  unit : Option String
  qty : Int
  rate : Option ℚ
  value : Option ℚ
deriving DecidableEq, Repr

/-- `max` on `ℚ` in a kernel-reducible form (Python `max` keeps the
current element on ties, which is value-equal). -/
def maxQ (a b : ℚ) : ℚ := if a < b then b else a

/-- Python `max(numbers)` for a non-empty list. -/
def maxNums : List ℚ → ℚ
  | [] => 0
  | x :: xs => xs.foldl maxQ x

/-- The quantity-candidate test `num == int(num) and 0 < num < 1000 and
num < max_num` (line 773).  Python's `num == int(num)` holds for a float
exactly when the value is integral, i.e. when the rational has
denominator 1. -/
@[reducible] def qtyCond (m n : ℚ) : Prop := n.den = 1 ∧ 0 < n ∧ n < 1000 ∧ n < m

/-- The rate test `num != qty_candidate and num != max_num and num > 0`
(line 782). -/
@[reducible] def rateCond (qc m n : ℚ) : Prop := n ≠ qc ∧ n ≠ m ∧ 0 < n

/-- First whole number strictly between 0 and 1000 and below the maximum:
the `for num in numbers: ... break` quantity search. -/
def firstQty (m : ℚ) : List ℚ → Option ℚ
  | [] => none
  | n :: rest => if qtyCond m n then some n else firstQty m rest

/-- First number that is neither the quantity candidate nor the maximum and
is positive: the rate search loop. -/
def firstRate (qc m : ℚ) : List ℚ → Option ℚ
  | [] => none
  | n :: rest => if rateCond qc m n then some n else firstRate qc m rest

/-- The number-to-role assignment at the end of `parse_item_multiline`
(lines 749–793 of the source): given the plain numbers collected for one
item, fill in `qty`, `rate`, `value` on the item record. -/
def assignNumbers (numbers : List ℚ) (item : Item) : Item :=
  match numbers with
  | [] => item
  | [n] => { item with value := some n }
  | [n0, n1] =>
    -- two numbers: first is qty if it is a small whole number below the second
    if qtyCond n1 n0 then
      { item with qty := n0.num, value := some n1 }
    else
      { item with value := some (maxQ n0 n1) }
  | n0 :: n1 :: n2 :: rest =>
    let ns := n0 :: n1 :: n2 :: rest
    let maxN := maxNums ns
    -- fallback when no quantity candidate is found (`numbers[-1]`, `numbers[-2]`)
    let fallback : Item :=
      match ns.reverse with
      | [] => item
      | [a] => { item with value := some a }
      | a :: b :: _ => { item with value := some a, rate := some b }
    match firstQty maxN ns with
    | none => fallback
    | some qc =>
      -- Python re-tests `if qty_candidate:` (0 would be falsy); the search
      -- guarantees 0 < qc, so the guard is kept only for faithfulness
      if qc = 0 then fallback
      else
        let base := { item with qty := qc.num, value := some maxN }
        match firstRate qc maxN ns with
        | some rc => { base with rate := some rc }
        | none =>
          if 0 < qc ∧ 0 < maxN then { base with rate := some (maxN / qc) }
          else base

/-! ## Word-boundary keyword search (`\b(KW1|KW2|...)\b`, `re.I`)

Python's ordered alternation picks, at the leftmost matching start
position, the first alternative that matches; a `\b` holds where exactly
one neighbour is a word character (a missing neighbour counts as
non-word).  Alternatives with an optional suffix (`UNITS?`, `SETS?`,
`No\.?`) are expanded into their greedy order of candidates. -/

/-- `\b` between the character before the match and the matched text
(all keywords start with a word character). -/
def leftBd : Option Char → Bool
  | none => true
  | some p => !isWordC p

/-- `\b` after a matched literal whose last character is `lastC`, given the
remaining input. -/
def rightBd (lastC : Char) : List Char → Bool
  | [] => isWordC lastC
  | c :: _ => isWordC lastC != isWordC c

/-- First alternative (in order) matching at the current position, with its
trailing word boundary; returns the canonical (already upper-case) text. -/
def firstAlt (alts : List (List Char)) (s : List Char) : Option (List Char) :=
  alts.find? fun a =>
    startsCI a s &&
      (match a.getLast? with
       | some lc => rightBd lc (s.drop a.length)
       | none => true)

/-- Leftmost keyword match: start index and the canonical matched text. -/
def findWordAlt (alts : List (List Char)) (s : List Char) : Option (Nat × List Char) :=
  let rec go : Option Char → Nat → List Char → Option (Nat × List Char)
    | _, _, [] => none
    | prev, i, c :: rest =>
      match (if leftBd prev then firstAlt alts (c :: rest) else none) with
      | some a => some (i, a)
      | none => go (some c) (i + 1) rest
  go none 0 s

/-- Boolean form, for the keyword-scoring regexes. -/
def hasWordAlt (alts : List (List Char)) (s : List Char) : Bool :=
  (findWordAlt alts s).isSome

/-- Case-insensitive substring search (a regex alternative with no
anchors/boundaries, e.g. `Description|Desc`). -/
def hasLit (lit : List Char) (s : List Char) : Bool :=
  let rec go : List Char → Bool
    | [] => startsCI lit []
    | c :: rest => startsCI lit (c :: rest) || go rest
  go s

/-- Search for `A\s*B` (two literals separated by optional whitespace),
case-insensitive, e.g. `Net\s*Value`. -/
def hasLitWsLit (a b : List Char) (s : List Char) : Bool :=
  let rec go : List Char → Bool
    | [] => false
    | c :: rest =>
      (startsCI a (c :: rest) &&
        startsCI b (((c :: rest).drop a.length).dropWhile isWsC)) || go rest
  go s

/-- Search for `A\s*c` (a literal, optional whitespace, then one required
character), e.g. `Total\s*:`. -/
def hasLitWsChar (a : List Char) (ch : Char) (s : List Char) : Bool :=
  let rec go : List Char → Bool
    | [] => false
    | c :: rest =>
      (startsCI a (c :: rest) &&
        (match ((c :: rest).drop a.length).dropWhile isWsC with
         | d :: _ => d = ch
         | [] => false)) || go rest
  go s

/-- Search for `A\s*\d+`, e.g. `Page\s*\d+`. -/
def hasLitWsDigit (a : List Char) (s : List Char) : Bool :=
  let rec go : List Char → Bool
    | [] => false
    | c :: rest =>
      (startsCI a (c :: rest) &&
        (match ((c :: rest).drop a.length).dropWhile isWsC with
         | d :: _ => isDigitC d
         | [] => false)) || go rest
  go s

/-! ## The item-start and item-code matchers -/

/-- `re.match(r'^(\d{1,2})\s+', line)`: a 1–2 digit serial number followed
by whitespace.  (A 3-digit run cannot match: the greedy 2- or 1-digit
prefix is always followed by another digit, not whitespace.)  Returns the
serial value and the rest of the line after the greedy `\s+`, stripped. -/
def srMatch (s : List Char) : Option (Nat × List Char) :=
  let d := s.takeWhile isDigitC
  if 1 ≤ d.length && d.length ≤ 2 then
    match s.drop d.length with
    | c :: rest =>
      if isWsC c then some (natOfDigits d, trimChars (rest.dropWhile isWsC))
      else none
    | [] => none
  else none

/-- Boolean item-start test (the same regex used as a guard). -/
def srTest (s : List Char) : Bool := (srMatch s).isSome

/-- Greedy bounded repetition with trailing `\s+`: largest `k` with
`lo ≤ k ≤ hi` such that the character at index `k` is whitespace (the
repetition body is a character class, so every shorter prefix ends inside
the run and cannot be followed by whitespace). -/
def tryLens (s : List Char) (lo : Nat) : Nat → Option Nat
  | 0 => none
  | k + 1 =>
    if k + 1 < lo then none
    else
      match s.drop (k + 1) with
      | c :: _ => if isWsC c then some (k + 1) else tryLens s lo k
      | [] => tryLens s lo k

/-- `re.match(r'^(\d{6,15}|[A-Z0-9]{3,15})\s+', rest)` (case sensitive):
an item code at the start of the line.  Returns the code and the rest
after the greedy `\s+`, stripped; `none` leaves the input unchanged. -/
def codeMatch (s : List Char) : Option (List Char) × List Char :=
  let isAZ09 := fun c => isUpperC c || isDigitC c
  let d := (s.takeWhile isDigitC).length
  match tryLens s 6 (min d 15) with
  | some k => (some (s.take k), trimChars ((s.drop k).dropWhile isWsC))
  | none =>
    let a := (s.takeWhile isAZ09).length
    match tryLens s 3 (min a 15) with
    | some k => (some (s.take k), trimChars ((s.drop k).dropWhile isWsC))
    | none => (none, s)

/-! ## Unit keyword lists (each in the source's alternation order) -/

/-- `\b(PCS|NOS|KG|HR|LTR|PIECES|UNITS?|KIT|BOX|CASE|SETS?|PC|UNT|KTS|BAG|
BUNDLE|PACK|CYLINDER|LITRE|TYRE|TIRE|TL|LT)\b` (line 656). -/
def unitAlts1 : List (List Char) :=
  [("PCS").data, ("NOS").data, ("KG").data, ("HR").data, ("LTR").data,
   ("PIECES").data, ("UNITS").data, ("UNIT").data, ("KIT").data,
   ("BOX").data, ("CASE").data, ("SETS").data, ("SET").data, ("PC").data,
   ("UNT").data, ("KTS").data, ("BAG").data, ("BUNDLE").data,
   ("PACK").data, ("CYLINDER").data, ("LITRE").data, ("TYRE").data,
   ("TIRE").data, ("TL").data, ("LT").data]

/-- The continuation-line unit list (line 721; no TYRE/TIRE/TL/LT). -/
def unitAltsCont : List (List Char) :=
  [("PCS").data, ("NOS").data, ("KG").data, ("HR").data, ("LTR").data,
   ("PIECES").data, ("UNITS").data, ("UNIT").data, ("KIT").data,
   ("BOX").data, ("CASE").data, ("SETS").data, ("SET").data, ("PC").data,
   ("UNT").data, ("KTS").data, ("BAG").data, ("BUNDLE").data,
   ("PACK").data, ("CYLINDER").data, ("LITRE").data]

/-- `\b(NOS|PCS|KG|HR|LTR|UNT|BOX|PCS|PC|NOS)\b` in the coordinate
extractor (line 257; the duplicates are in the source). -/
def unitAltsCoord : List (List Char) :=
  [("NOS").data, ("PCS").data, ("KG").data, ("HR").data, ("LTR").data,
   ("UNT").data, ("BOX").data, ("PCS").data, ("PC").data, ("NOS").data]

/-- The small list in the qty/unit continuation-start test (line 719). -/
def unitAltsQtyLine : List (List Char) :=
  [("PCS").data, ("NOS").data, ("UNT").data, ("KG").data, ("LTR").data,
   ("BOX").data, ("CASE").data]

/-! ## Trailing-number removal for descriptions without a unit -/

/-- Does the suffix `s` match `\s+\d+(?:,\d+)*(?:\.\d+)?\s*$` in full?
(After the greedy number, only an all-whitespace remainder can reach `$`;
shrinking any repetition leaves a digit, comma or dot in the remainder, so
greedy matching is exact here.) -/
def trailNumAt (s : List Char) : Bool :=
  let w := s.takeWhile isWsC
  if w.isEmpty then false
  else
    match s.drop w.length with
    | c :: rest =>
      if isDigitC c then
        let (_, r) := numToken (c :: rest)
        r.all isWsC
      else false
    | [] => false

/-- `re.sub(r'\s+\d+(?:,\d+)*(?:\.\d+)?\s*$', '', s)`: remove one trailing
number (the leftmost — hence only — position where the pattern reaches the
end of the string). -/
def stripTrailingNum (s : List Char) : List Char :=
  let rec go : Nat → List Char → Option Nat
    | _, [] => none
    | i, c :: rest =>
      if trailNumAt (c :: rest) then some i else go (i + 1) rest
  match go 0 s with
  | some i => s.take i
  | none => s

/-! ## Stop / skip line tests shared by the text line-item machinery -/

/-- Case-insensitive equality of two character lists. -/
def eqCIList (a b : List Char) : Bool := lowerStr a == lowerStr b

/-- `re.search(r'(Net\s*Value|Gross\s*Value|Grand\s*Total|Total\s*:|Page\s*\d+|Existing\s*Customer)', line, re.I)`
— the totals-section stop test of `extract_line_items_from_text`. -/
def sectionStop (line : List Char) : Bool :=
  hasLitWsLit ("Net").data ("Value").data line ||
  hasLitWsLit ("Gross").data ("Value").data line ||
  hasLitWsLit ("Grand").data ("Total").data line ||
  hasLitWsChar ("Total").data ':' line ||
  hasLitWsDigit ("Page").data line ||
  hasLitWsLit ("Existing").data ("Customer").data line

/-- `^\s*(Sr|Item|Code|Description|Type|Qty|Rate|Value|Unit|Price|Amount)\s*$`
— a pure column-header line (the input lines are already stripped, so the
anchored pattern reduces to case-insensitive equality with one keyword). -/
def headerOnlyLine (line : List Char) : Bool :=
  [("Sr").data, ("Item").data, ("Code").data, ("Description").data,
   ("Type").data, ("Qty").data, ("Rate").data, ("Value").data,
   ("Unit").data, ("Price").data, ("Amount").data].any
    (fun w => eqCIList w (trimChars line))

/-- The continuation-line stop regex of `parse_item_multiline` (line 698):
adds Customer Information / Invoice Date / Date to the totals keywords. -/
def contStop (line : List Char) : Bool :=
  hasLitWsLit ("Net").data ("Value").data line ||
  hasLitWsLit ("Gross").data ("Value").data line ||
  hasLitWsLit ("Grand").data ("Total").data line ||
  hasLitWsChar ("Total").data ':' line ||
  hasLitWsDigit ("Page").data line ||
  hasLitWsLit ("Existing").data ("Customer").data line ||
  hasLitWsLit ("Customer").data ("Information").data line ||
  hasLitWsLit ("Invoice").data ("Date").data line ||
  hasLit ("Date").data line

/-- `^\s*(?:Sr|S\.N|Item|Code|Description|Type|Qty|Rate|Value|Unit|Price|Amount|#)\s*$`
— a header-like continuation line (line 702). -/
def headerLikeCont (line : List Char) : Bool :=
  [("Sr").data, ("S.N").data, ("Item").data, ("Code").data,
   ("Description").data, ("Type").data, ("Qty").data, ("Rate").data,
   ("Value").data, ("Unit").data, ("Price").data, ("Amount").data,
   ("#").data].any (fun w => eqCIList w (trimChars line))

/-- `re.match(r'^\d+\s+[\d\,\.]+', stripped)` — a number followed by a
comma/dot amount (line 710). -/
def numAmountStart (s : List Char) : Bool :=
  let d := s.takeWhile isDigitC
  if d.isEmpty then false
  else
    let r := s.drop d.length
    let w := r.takeWhile isWsC
    if w.isEmpty then false
    else
      match r.drop w.length with
      | c :: _ => isDigitC c || c = ',' || c = '.'
      | [] => false

/-- `re.match(r'^[\d\.\%]+$', stripped)` — only digits/dots/percents
(line 714). -/
def pureNumPct (s : List Char) : Bool :=
  !s.isEmpty && s.all (fun c => isDigitC c || c = '.' || c = '%')

/-- `re.match(r'^\d+\s+(?:PCS|NOS|UNT|KG|LTR|BOX|CASE)\b', stripped, re.I)`
— a qty/unit line that got split (line 719). -/
def qtyUnitStart (s : List Char) : Bool :=
  let d := s.takeWhile isDigitC
  if d.isEmpty then false
  else
    let r := s.drop d.length
    let w := r.takeWhile isWsC
    if w.isEmpty then false
    else (firstAlt unitAltsQtyLine (r.drop w.length)).isSome

/-! ## `parse_item_multiline` -/

/-- `' '.join(filter(None, parts))`. -/
def joinSp (parts : List (List Char)) : List Char :=
  match parts.filter (fun p => !p.isEmpty) with
  | [] => []
  | p :: ps => ps.foldl (fun acc q => acc ++ ' ' :: q) p

/-- The continuation-line loop of `parse_item_multiline` (lines 690–730):
returns the description continuation parts, the possibly updated unit, and
the number of extra lines consumed. -/
def contLoop : Option (List Char) → List (List Char) →
    List (List Char) × Option (List Char) × Nat
  | unit0, [] => ([], unit0, 0)
  | unit0, nl :: rest =>
    if srTest nl then ([], unit0, 0)
    else if contStop nl then ([], unit0, 0)
    else if (trimChars nl).isEmpty || headerLikeCont nl then ([], unit0, 0)
    else
      let st := trimChars nl
      if numAmountStart st then ([], unit0, 0)
      else if pureNumPct st then ([], unit0, 0)
      else if qtyUnitStart st then
        -- a qty/unit line supplies the unit (when none yet) and stops
        let u : Option (List Char) :=
          match unit0 with
          | some u0 => some u0
          | none => (findWordAlt unitAltsCont st).map (fun p => p.2)
        ([], u, 0)
      else
        let (ps, u, k) := contLoop unit0 rest
        (nl :: ps, u, k + 1)

/-- `parse_item_multiline(all_lines, start_idx)` (lines 623–795): parse one
item that may span multiple lines; returns the item (or `none`) and the
number of lines consumed. -/
def parse_item_multiline (all_lines : List (List Char)) (start_idx : Nat) :
    Option Item × Nat :=
  match all_lines.drop start_idx with
  | [] => (none, 0)
  | current :: laterLines =>
    match srMatch current with
    | none => (none, 1)
    | some (_sr_no, rest0) =>
      let (item_code, rest1) := codeMatch rest0
      let unitM := findWordAlt unitAlts1 rest1
      let numbers := lineNumbers rest1
      let description :=
        match unitM with
        | some (st, _) => trimChars (rest1.take st)
        | none => trimChars (stripTrailingNum rest1)
      let unit0 := unitM.map (fun p => p.2)
      let (parts, unit1, extra) := contLoop unit0 laterLines
      let lines_consumed := 1 + extra
      let full := (collapseWs (trimChars (joinSp (description :: parts)))).take 255
      if full.length < 2 then (none, lines_consumed)
      else
        let item0 : Item :=
          { description := String.mk full, code := item_code.map String.mk,
            unit := unit1.map String.mk, qty := 1, rate := none, value := none }
        (some (assignNumbers numbers item0), lines_consumed)

/-! ## `extract_line_items_from_text` -/

/-- The five keyword-category tests scored by the item-section header
search (lines 582–588). -/
def scoreItemHeader (line : List Char) : Nat :=
  (if hasWordAlt [("Sr").data, ("S.N").data, ("Serial").data,
                  ("No.").data, ("No").data] line then 1 else 0) +
  (if hasWordAlt [("Item").data, ("Code").data, ("Product").data] line
   then 1 else 0) +
  (if hasWordAlt [("Description").data, ("Desc").data] line then 1 else 0) +
  (if hasWordAlt [("Qty").data, ("Quantity").data] line then 1 else 0) +
  (if hasWordAlt [("Rate").data, ("Price").data, ("Value").data,
                  ("Amount").data] line then 1 else 0)

/-- The item-section scan loop (lines 597–620), fuelled: the cursor
advances by at least one line per iteration, so fuel ≥ number of lines
always suffices. -/
def itemsLoop (cleaned : List (List Char)) : Nat → Nat → List Item
  | _, 0 => []
  | i, fuel + 1 =>
    match cleaned.drop i with
    | [] => []
    | line :: _ =>
      if sectionStop line then []
      else if headerOnlyLine line then itemsLoop cleaned (i + 1) fuel
      else if srTest line then
        match parse_item_multiline cleaned i with
        | (some it, k) => it :: itemsLoop cleaned (i + k) fuel
        | (none, k) => itemsLoop cleaned (i + k) fuel
      else itemsLoop cleaned (i + 1) fuel

/-- `extract_line_items_from_text(text)` (lines 571–621). -/
def extract_line_items_from_text (text : String) : List Item :=
  let cleaned := ((splitNl text.data).map trimChars).filter (fun l => !l.isEmpty)
  match cleaned.findIdx? (fun l => decide (3 ≤ scoreItemHeader l)) with
  | none => []
  | some idx => itemsLoop cleaned (idx + 1) (cleaned.length + 1)

/-! ## The coordinate-based table extractor
(`_extract_items_with_coordinates`, lines 112–279)

The external PDF library (`fitz`) supplies, per page, a list of word
tuples `(x0, y0, x1, y1, text, block_no, line_no, word_no)`; the extractor
is modelled as a function of that word data.  Python's `dict.setdefault`
grouping preserves first-occurrence key order and `list.sort` is stable;
both are mirrored exactly. -/

/-- One positioned word as returned by `page.get_text("words")`
(`word_no` is never read by the extractor and is omitted). -/
structure Word where
  x0 : ℚ
  y0 : ℚ
  x1 : ℚ
  y1 : ℚ
  text : String
  block : Nat
  line : Nat
deriving DecidableEq, Repr

def wDefault : Word := { x0 := 0, y0 := 0, x1 := 0, y1 := 0, text := "", block := 0, line := 0 }

/-- `lines_map.setdefault((block_no, line_no), []).append(...)`: append `w`
to its `(block, line)` group, keeping first-occurrence key order. -/
def addToGroups (gs : List ((Nat × Nat) × List Word)) (w : Word) :
    List ((Nat × Nat) × List Word) :=
  match gs with
  | [] => [((w.block, w.line), [w])]
  | (k, ws) :: rest =>
    if k = (w.block, w.line) then (k, ws ++ [w]) :: rest
    else (k, ws) :: addToGroups rest w

def groupByBL (ws : List Word) : List (List Word) :=
  (ws.foldl addToGroups []).map (fun g => g.2)

/-- Stable insertion (an element is placed before the first entry that is
not strictly smaller), so that `foldr insertBy []` is a stable sort like
Python's `list.sort`. -/
def insertBy (lt : α → α → Bool) (a : α) : List α → List α
  | [] => [a]
  | b :: bs => if lt b a then b :: insertBy lt a bs else a :: b :: bs

def sortBy (lt : α → α → Bool) (l : List α) : List α :=
  l.foldr (insertBy lt) []

/-- `' '.join(texts)` (no filtering of empty entries). -/
def joinAll : List (List Char) → List Char
  | [] => []
  | t :: rest => rest.foldl (fun acc q => acc ++ ' ' :: q) t

def joinedText (lw : List Word) : List Char :=
  joinAll (lw.map (fun w => w.text.data))

/-- `\bS\.?\s*No\.?` (no trailing boundary), searched case-insensitively. -/
def hasSNo (s : List Char) : Bool :=
  let rec go : Option Char → List Char → Bool
    | _, [] => false
    | prev, c :: rest =>
      (leftBd prev && eqCI c 's' &&
        (let r1 := match rest with
           | '.' :: t => t
           | _ => rest
         startsCI ("No").data (r1.dropWhile isWsC))) || go (some c) rest
  go none s

/-- The six header-keyword category tests of the coordinate extractor
(line 146), applied to the joined line text. -/
def coordScore (j : List Char) : Nat :=
  (if hasWordAlt [("Sr").data] j || hasSNo j then 1 else 0) +
  (if hasLitWsLit ("Item").data ("Code").data j || hasLit ("Code").data j
   then 1 else 0) +
  (if hasLit ("Description").data j || hasLit ("Desc").data j then 1 else 0) +
  (if hasLit ("Qty").data j || hasLit ("Quantity").data j then 1 else 0) +
  (if hasLit ("Rate").data j || hasLitWsLit ("Unit").data ("Price").data j ||
      hasLit ("Price").data j then 1 else 0) +
  (if hasLit ("Value").data j || hasLit ("Amount").data j then 1 else 0)

/-- First line scoring at least 3 keyword categories, with the lines after
it (the header detection loop, lines 141–155). -/
def findHeader : List (List Word) → Option (List Word × List (List Word))
  | [] => none
  | lw :: rest =>
    if 3 ≤ coordScore (joinedText lw) then some (lw, rest)
    else findHeader rest

/-- `^s\.?\s*no\.?$` on one header word. -/
def matchSNoFull (w : List Char) : Bool :=
  match w with
  | c :: rest =>
    if eqCI c 's' then
      let r1 := match rest with
        | '.' :: t => t
        | _ => rest
      let r2 := r1.dropWhile isWsC
      if startsCI ("no").data r2 then
        match r2.drop 2 with
        | [] => true
        | ['.'] => true
        | _ => false
      else false
    else false
  | [] => false

/-- The per-column header-word pattern sets of `col_defs` (lines 166–174). -/
def colMatches (name : String) (w : Word) : Bool :=
  let t := w.text.data
  if name = ("sr") then
    eqCIList t ("sr").data || matchSNoFull t ||
    eqCIList t ("no").data || eqCIList t ("no.").data
  else if name = ("code") then
    hasLitWsLit ("item").data ("code").data t || eqCIList t ("code").data
  else if name = ("description") then
    eqCIList t ("description").data || eqCIList t ("desc").data
  else if name = ("type") then
    eqCIList t ("type").data || eqCIList t ("unit").data
  else if name = ("qty") then
    eqCIList t ("qty").data || eqCIList t ("quantity").data
  else if name = ("rate") then
    eqCIList t ("rate").data || hasLitWsLit ("unit").data ("price").data t ||
    eqCIList t ("price").data
  else if name = ("value") then
    eqCIList t ("value").data || eqCIList t ("amount").data ||
    eqCIList t ("total").data
  else false

/-- `find_word_x` over all seven canonical columns, in `col_defs` order:
for each column, the `x0` of the first header word matching one of its
patterns; unmatched columns are absent (lines 157–182). -/
def buildColumns (hw : List Word) : List (String × ℚ) :=
  [("sr"), ("code"), ("description"), ("type"), ("qty"), ("rate"), ("value")].filterMap
    (fun name => (hw.find? (colMatches name)).map (fun w => (name, w.x0)))

/-- The column range for index `idx` (lines 186–198): the first range
starts 2 units left of its anchor, the last ends 2000 units right of its
anchor, interior bounds are midpoints between adjacent anchors. -/
def rangeAt (cols : List (String × ℚ)) (idx : Nat) : String × ℚ × ℚ :=
  let nx := cols.getD idx (("", 0))
  let x := nx.2
  if idx = 0 then
    (nx.1, qSub x 2,
      if idx + 1 < cols.length then qHalf (qAdd (cols.getD (idx + 1) (("", 0))).2 x)
      else qAdd x 2000)
  else if idx = cols.length - 1 then
    (nx.1, qHalf (qAdd (cols.getD (idx - 1) (("", 0))).2 x), qAdd x 2000)
  else
    (nx.1, qHalf (qAdd (cols.getD (idx - 1) (("", 0))).2 x),
      qHalf (qAdd (cols.getD (idx + 1) (("", 0))).2 x))

def buildRanges (cols : List (String × ℚ)) : List (String × ℚ × ℚ) :=
  (List.range cols.length).map (rangeAt cols)

/-- The totals stop test of the body loop (line 208). -/
def coordStop (j : List Char) : Bool :=
  hasLitWsLit ("Net").data ("Value").data j ||
  hasLitWsLit ("Gross").data ("Value").data j ||
  hasLitWsLit ("Grand").data ("Total").data j ||
  hasLitWsChar ("Total").data ':' j

/-- The first column range containing a word's `x0` (lines 213–217). -/
def rangeAssign (ranges : List (String × ℚ × ℚ)) (w : Word) : Option String :=
  (ranges.find? (fun r => decide (r.2.1 ≤ w.x0 ∧ w.x0 < r.2.2))).map (fun r => r.1)

/-- The joined text of one named cell of a row. -/
def cellText (ranges : List (String × ℚ × ℚ)) (name : String) (lw : List Word) :
    List Char :=
  joinAll ((lw.filter (fun w => rangeAssign ranges w == some name)).map
    (fun w => w.text.data))

/-- `re.search(r'(\d{3,15})', code_text)`: first run of at least three
digits, truncated to fifteen. -/
def codeSearch : List Char → Option (List Char)
  | [] => none
  | c :: rest =>
    if isDigitC c then
      let d := (c :: rest).takeWhile isDigitC
      if 3 ≤ d.length then some (d.take 15) else codeSearch rest
    else codeSearch rest

/-- `re.search(r'(\d{1,4})', qty_text)`: first digit run, up to four
digits. -/
def qtySearch : List Char → Option Nat
  | [] => none
  | c :: rest =>
    if isDigitC c then some (natOfDigits (((c :: rest).takeWhile isDigitC).take 4))
    else qtySearch rest

/-- `re.sub(r'[^\d\.-]', '', s)`: keep digits, dots and minus signs. -/
def decClean (s : List Char) : List Char :=
  s.filter (fun c => isDigitC c || c = '.' || c = '-')

/-- `Decimal(cleaned)` over the cleaned alphabet `[0-9.-]`: an optional
leading minus, then digits with at most one dot and at least one digit;
anything else raises in Python and yields `None` (the `to_dec` helper,
lines 241–245). -/
def parseDecSigned (s : List Char) : Option ℚ :=
  let neg : Bool := match s with
    | '-' :: _ => true
    | _ => false
  let t := match s with
    | '-' :: t => t
    | _ => s
  let ip := t.takeWhile isDigitC
  let r := t.drop ip.length
  let core : Option ℚ :=
    match r with
    | [] => if ip.isEmpty then none else some (qOfNat (natOfDigits ip))
    | '.' :: f =>
      if f.all isDigitC then
        if ip.isEmpty && f.isEmpty then none
        else some (qOfDigits ip f)
      else none
    | _ => none
  core.map (fun q => if neg then -q else q)

def to_dec (s : List Char) : Option ℚ := parseDecSigned (decClean s)

/-- Python `Decimal` truthiness (`Decimal('0')` is falsy). -/
def truthyQOpt : Option ℚ → Bool
  | some q => q ≠ 0
  | none => false

/-- One body row of the coordinate extractor (lines 211–272): `none` when
the row is skipped. -/
def rowItem (ranges : List (String × ℚ × ℚ)) (lw : List Word) : Option Item :=
  let desc := trimChars (cellText ranges ("description") lw)
  if desc.isEmpty then none
  else
    let code_text := trimChars (cellText ranges ("code") lw)
    let item_code :=
      if code_text.isEmpty then none else (codeSearch code_text).map String.mk
    let qty_text := trimChars ((cellText ranges ("qty") lw).filter (fun c => c ≠ ','))
    let qty_val := if qty_text.isEmpty then none else qtySearch qty_text
    let rate_text := trimChars (cellText ranges ("rate") lw)
    let rate_val := if rate_text.isEmpty then none else to_dec rate_text
    let value_text := trimChars (cellText ranges ("value") lw)
    let value_val := if value_text.isEmpty then none else to_dec value_text
    let type_text := trimChars (cellText ranges ("type") lw)
    let unit_val : Option String :=
      if type_text.isEmpty then none
      else
        match findWordAlt unitAltsCoord type_text with
        | some (_, kw) => some (String.mk kw)
        | none => some (String.mk (upperStr type_text))
    -- `if not desc and not value_val and not rate_val: continue`
    if desc.isEmpty && !truthyQOpt value_val && !truthyQOpt rate_val then none
    else
      some { description := String.mk (desc.take 255),
             qty := (match qty_val with
                     | some q => if q = 0 then 1 else (q : Int)
                     | none => 1),
             unit := unit_val,
             value := value_val,
             rate := rate_val,
             code := item_code }

/-- The body-row loop (lines 200–272): stops at the totals section, skips
rows without a description. -/
def bodyLoop (ranges : List (String × ℚ × ℚ)) : List (List Word) → List Item
  | [] => []
  | lw :: rest =>
    if coordStop (joinedText lw) then []
    else
      match rowItem ranges lw with
      | some it => it :: bodyLoop ranges rest
      | none => bodyLoop ranges rest

/-- One page of `_extract_items_with_coordinates`. -/
def pageItems (ws : List Word) : List Item :=
  if ws.isEmpty then []
  else
    let ordered :=
      sortBy (fun l1 l2 => decide ((l1.headD wDefault).y0 < (l2.headD wDefault).y0))
        ((groupByBL ws).map (sortBy (fun u w => decide (u.x0 < w.x0))))
    match findHeader ordered with
    | none => []
    | some (hw, after) =>
      let cols := buildColumns hw
      if cols.isEmpty then []
      else bodyLoop (buildRanges (sortBy (fun a b => decide (a.2 < b.2)) cols)) after

/-- `_extract_items_with_coordinates(file_bytes)` as a function of the word
data the PDF library produced: pages are processed independently and their
item lists concatenated. -/
def extract_items_with_coordinates (pages : List (List Word)) : List Item :=
  (pages.map pageItems).flatten

/-! ## Monetary amounts (`find_amount` / `to_decimal`, lines 513–532)

The label patterns all have the shape `lit` or `lit\s*lit`, followed by
`\s*[:=]?\s*(?:TSH|TZS|UGX)?\s*([\d,]+\.?\d*)`.  The only backtracking
point Python can exercise is the optional currency code (taking it may
starve the capture), which is mirrored explicitly. -/

/-- Consume the label words (each separated by `\s*`) at the current
position; returns the rest of the line. -/
def matchLabel : List (List Char) → List Char → Option (List Char)
  | [], s => some s
  | w :: ws, s =>
    if startsCI w s then matchLabel ws ((s.drop w.length).dropWhile isWsC)
    else none

/-- The captured group `([\d,]+\.?\d*)` (greedy; nothing follows it). -/
def capNum (u : List Char) : Option (List Char) :=
  let ds := u.takeWhile (fun c => isDigitC c || c = ',')
  if ds.isEmpty then none
  else
    match u.drop ds.length with
    | '.' :: t => some (ds ++ '.' :: t.takeWhile isDigitC)
    | _ => some ds

/-- `\s*[:=]?\s*(?:TSH|TZS|UGX)?\s*([\d,]+\.?\d*)` after the label. -/
def amountCapture (r0 : List Char) : Option (List Char) :=
  let r1 := r0.dropWhile isWsC
  let r2 := match r1 with
    | ':' :: t => t
    | '=' :: t => t
    | _ => r1
  let r3 := r2.dropWhile isWsC
  let cur : Option (List Char) :=
    if startsCI ("TSH").data r3 then some (r3.drop 3)
    else if startsCI ("TZS").data r3 then some (r3.drop 3)
    else if startsCI ("UGX").data r3 then some (r3.drop 3)
    else none
  match cur with
  | some r4 =>
    match capNum (r4.dropWhile isWsC) with
    | some cap => some cap
    | none => capNum r3
  | none => capNum r3

/-- `re.search` of one amount pattern on one line (leftmost position where
label and capture both match). -/
def searchAmount (label : List (List Char)) (line : List Char) : Option (List Char) :=
  let rec go : List Char → Option (List Char)
    | [] => none
    | c :: rest =>
      match matchLabel label (c :: rest) with
      | some r =>
        match amountCapture r with
        | some cap => some cap
        | none => go rest
      | none => go rest
  go line

def firstOnLines (lab : List (List Char)) : List (List Char) → Option (List Char)
  | [] => none
  | l :: ls =>
    match searchAmount lab l with
    | some c => some c
    | none => firstOnLines lab ls

/-- `find_amount(label_patterns)`: patterns in priority order, each
scanned over all extraction lines. -/
def findAmount : List (List (List Char)) → List (List Char) → Option (List Char)
  | [], _ => none
  | lab :: labs, lines =>
    match firstOnLines lab lines with
    | some c => some c
    | none => findAmount labs lines

/-- `to_decimal(s)` (lines 521–528): strip separators, keep digits and
dots, parse as exact `Decimal`; malformed input yields `None`. -/
def to_decimal (s : List Char) : Option ℚ :=
  parseDecSigned ((s.filter (fun c => c ≠ ',')).filter
    (fun c => isDigitC c || c = '.'))

/-- `A\s+B` (at least one whitespace between), case-insensitive search:
the `Proforma\s+Invoice` anchor. -/
def hasLitWs1Lit (a b : List Char) (s : List Char) : Bool :=
  let rec go : List Char → Bool
    | [] => false
    | c :: rest =>
      (startsCI a (c :: rest) &&
        (let r := (c :: rest).drop a.length
         let w := r.takeWhile isWsC
         !w.isEmpty && startsCI b (r.drop w.length))) || go rest
  go s

/-- The normalised, stripped, non-empty lines of `parse_invoice_data`
(lines 311–312). -/
def invoiceLines (text : String) : List (List Char) :=
  ((splitNl (normNl text.data)).map trimChars).filter (fun l => !l.isEmpty)

/-- `Proforma\s+Invoice|PI\s*No|Code\s*No` (line 317). -/
def proformaAnchor (line : List Char) : Bool :=
  hasLitWs1Lit ("Proforma").data ("Invoice").data line ||
  hasLitWsLit ("PI").data ("No").data line ||
  hasLitWsLit ("Code").data ("No").data line

/-- The lines from the Proforma-Invoice marker onwards (lines 314–326):
the whole document when no marker is found. -/
def extractionLines (text : String) : List (List Char) :=
  let lines := invoiceLines text
  match lines.findIdx? proformaAnchor with
  | some i => lines.drop i
  | none => lines

/-- The `subtotal` component of `parse_invoice_data` (line 530):
`to_decimal(find_amount([r'Net\s*Value', r'Subtotal', r'Net\s*Amount']))`
over the extraction lines. -/
def parse_invoice_subtotal (text : String) : Option ℚ :=
  (findAmount [[("Net").data, ("Value").data], [("Subtotal").data],
               [("Net").data, ("Amount").data]] (extractionLines text)).bind
    to_decimal

/-- The `total` component of `parse_invoice_data` (line 532). -/
def parse_invoice_total (text : String) : Option ℚ :=
  (findAmount [[("Gross").data, ("Value").data], [("Grand").data, ("Total").data],
               [("Total").data, ("Amount").data]] (extractionLines text)).bind
    to_decimal

/-! ## `extract_from_bytes` (lines 797–949)

The two external stages — PDF text extraction (`extract_text_from_pdf`,
which depends on the PDF backends) and the parsing stage inside the
`try` block (which runs `parse_invoice_data` and the coordinate
extraction) — enter the model as `Except` parameters: `.error` is a
raised Python exception, `.ok` the value produced. -/

/-- Python `str` truthiness for optional strings. -/
def truthySOpt : Option String → Bool
  | some s => s ≠ ""
  | none => false

/-- The parsed header data consumed by the orchestrator (the fields of the
`parse_invoice_data` result dictionary it reads). -/
structure ParsedData where
  invoice_no : Option String
  code_no : Option String
  date : Option String
  customer_name : Option String
  phone : Option String
  email : Option String
  address : Option String
  reference : Option String
  subtotal : Option ℚ
  tax : Option ℚ
  total : Option ℚ
  items : List Item
  payment_method : Option String
  delivery_terms : Option String
  remarks : Option String
  attended_by : Option String
  kind_attention : Option String
deriving DecidableEq, Repr

/-- A `ParsedData` with every field absent (the all-`None` dictionary). -/
def emptyParsed : ParsedData :=
  { invoice_no := none, code_no := none, date := none, customer_name := none,
    phone := none, email := none, address := none, reference := none,
    subtotal := none, tax := none, total := none, items := [],
    payment_method := none, delivery_terms := none, remarks := none,
    attended_by := none, kind_attention := none }

/-- The `header` dictionary assembled on lines 882–899; monetary fields go
through `float(x) if x else None`, which maps a zero Decimal to `None`. -/
structure OutHeader where
  invoice_no : Option String
  code_no : Option String
  date : Option String
  customer_name : Option String
  phone : Option String
  email : Option String
  address : Option String
  reference : Option String
  subtotal : Option ℚ
  tax : Option ℚ
  total : Option ℚ
  payment_method : Option String
  delivery_terms : Option String
  remarks : Option String
  attended_by : Option String
  kind_attention : Option String
deriving DecidableEq, Repr

def buildHeader (p : ParsedData) : OutHeader :=
  { invoice_no := p.invoice_no, code_no := p.code_no, date := p.date,
    customer_name := p.customer_name, phone := p.phone, email := p.email,
    address := p.address, reference := p.reference,
    subtotal := if truthyQOpt p.subtotal then p.subtotal else none,
    tax := if truthyQOpt p.tax then p.tax else none,
    total := if truthyQOpt p.total then p.total else none,
    payment_method := p.payment_method, delivery_terms := p.delivery_terms,
    remarks := p.remarks, attended_by := p.attended_by,
    kind_attention := p.kind_attention }

/-- One formatted output item (lines 902–911): `value` falls back to `0.0`
when falsy, `rate` to `None` when falsy. -/
structure OutItem where
  description : String
  qty : Int
  unit : Option String
  code : Option String
  value : ℚ
  rate : Option ℚ
deriving DecidableEq, Repr

def formatItem (it : Item) : OutItem :=
  { description := it.description, qty := it.qty, unit := it.unit,
    code := it.code,
    value := (match it.value with
              | some v => if v = 0 then 0 else v
              | none => 0),
    rate := (match it.rate with
             | some r => if r = 0 then none else some r
             | none => none) }

/-- The top-level result record of `extract_from_bytes`.  Failure branches
return `header: {}` and `items: []`, modelled as `header := none`. -/
structure ExtractResult where
  success : Bool
  error : Option String
  message : String
  ocr_available : Bool
  header : Option OutHeader
  items : List OutItem
  raw_text : String
deriving DecidableEq, Repr

def failRec (err msg raw : String) : ExtractResult :=
  { success := false, error := some err, message := msg,
    ocr_available := false, header := none, items := [], raw_text := raw }

/-- Lines 872–937: assemble header and items from the completed parsing
stage and decide `success` by the `has_data` test (line 914). -/
def finalizeParsed (text : String) (parsed : ParsedData) (coordItems : List Item) :
    ExtractResult :=
  let final_items := if coordItems.isEmpty then parsed.items else coordItems
  let header := buildHeader parsed
  let formatted := final_items.map formatItem
  let has_data := truthySOpt header.customer_name || truthySOpt header.invoice_no ||
                  decide (0 < formatted.length) || truthyQOpt header.total
  if has_data then
    { success := true, error := none,
      message := "Invoice data extracted successfully", ocr_available := false,
      header := some header, items := formatted, raw_text := text }
  else
    failRec ("parsing_failed") ("Could not extract structured data from PDF.") text

/-- `filename.lower().endswith(('.jpg', '.jpeg', '.png', '.gif', '.tiff', '.bmp'))`. -/
def endsWithLit (suf s : List Char) : Bool := startsLit suf.reverse s.reverse

def isImageName (filename : String) : Bool :=
  let f := lowerStr filename.data
  [(".jpg").data, (".jpeg").data, (".png").data, (".gif").data,
   (".tiff").data, (".bmp").data].any (fun e => endsWithLit e f)

/-- `b'%PDF'`. -/
def pdfMagic : List Nat := [37, 80, 68, 70]

/-- `filename.lower().endswith('.pdf') or (len(file_bytes) > 4 and file_bytes[:4] == b'%PDF')`. -/
def isPdfFile (file_bytes : List Nat) (filename : String) : Bool :=
  endsWithLit (".pdf").data (lowerStr filename.data) ||
  (decide (4 < file_bytes.length) && file_bytes.take 4 == pdfMagic)

/-- `extract_from_bytes(file_bytes, filename)` (lines 797–949), with the
outcomes of the two external stages passed in: `pdfText` is the result of
`extract_text_from_pdf` (`.error` = it raised), `parsing` the result of
the parsing `try` block (`parse_invoice_data` plus the coordinate items;
`.error` = an exception inside that block). -/
def extract_from_bytes (file_bytes : List Nat) (filename : String)
    (pdfText : Except String String)
    (parsing : Except String (ParsedData × List Item)) : ExtractResult :=
  if file_bytes.isEmpty then
    failRec ("empty_file") ("File is empty. Please upload a valid PDF file.") ("")
  else if isImageName filename then
    failRec ("image_file_not_supported")
      ("Image files are not supported. Please convert to PDF or enter details manually.")
      ("")
  else if !isPdfFile file_bytes filename then
    failRec ("unsupported_file_type") ("Please upload a PDF file.") ("")
  else
    match pdfText with
    | .error e =>
      failRec ("pdf_extraction_failed")
        (("Could not extract text from PDF: ") ++ e) ("")
    | .ok text =>
      if (trimChars text.data).isEmpty then
        failRec ("no_text_extracted") ("No readable text found in PDF.") ("")
      else
        match parsing with
        | .error _ =>
          failRec ("parsing_failed")
            ("Could not extract structured data from PDF.") text
        | .ok (parsed, coordItems) => finalizeParsed text parsed coordItems

/-- A fresh item record as `parse_item_multiline` builds it before the
number-role assignment (lines 740–747): `qty` 1, `rate`/`value` unset. -/
def blankItem : Item :=
  { description := "item", code := none, unit := none, qty := 1,
    rate := none, value := none }

/-! ## Supporting lemmas about the number-role assignment -/

theorem firstQty_eq_find (m : ℚ) (l : List ℚ) :
    firstQty m l = l.find? (fun n => decide (qtyCond m n)) := by
  induction l with
  | nil => rfl
  | cons a l ih =>
    by_cases h : qtyCond m a <;> simp [firstQty, List.find?_cons, h, ih]

theorem firstRate_eq_find (qc m : ℚ) (l : List ℚ) :
    firstRate qc m l = l.find? (fun n => decide (rateCond qc m n)) := by
  induction l with
  | nil => rfl
  | cons a l ih =>
    by_cases h : rateCond qc m a <;> simp [firstRate, List.find?_cons, h, ih]

theorem firstQty_some {m q : ℚ} {l : List ℚ} (h : firstQty m l = some q) :
    qtyCond m q := by
  rw [firstQty_eq_find] at h
  have hb := List.find?_some h
  exact of_decide_eq_true hb

theorem firstRate_some {qc m r : ℚ} {l : List ℚ} (h : firstRate qc m l = some r) :
    rateCond qc m r := by
  rw [firstRate_eq_find] at h
  have hb := List.find?_some h
  exact of_decide_eq_true hb

theorem foldl_maxQ_nonneg {a : ℚ} (ha : 0 ≤ a) (l : List ℚ) :
    0 ≤ l.foldl maxQ a := by
  induction l generalizing a with
  | nil => exact ha
  | cons x l ih =>
    refine ih ?_
    unfold maxQ
    split
    · exact le_of_lt (lt_of_le_of_lt ha (by assumption))
    · exact ha

theorem maxQ_cases (a b : ℚ) : maxQ a b = a ∨ maxQ a b = b := by
  unfold maxQ; split
  · exact Or.inr rfl
  · exact Or.inl rfl

/-! ## C3 and C4: the NumberDisambiguator -/

/-- C3: with at least three collected plain numbers, `parse_item_multiline`
assigns roles as follows.  Let `max` be the largest number.  The quantity
candidate is the first number in order of appearance that is whole
(denominator 1), strictly between 0 and 1000, and less than `max`; if one
exists, `qty` is that number and `value = max`, and `rate` is the first
number that differs from both the quantity and `max` and is positive, or
`max / qty` when no such number exists.  With no quantity candidate,
`value` is the last number, `rate` the second-to-last, and `qty` is left
untouched. -/
theorem assignNumbers_three_or_more (ns : List ℚ) (it : Item)
    (h : 3 ≤ ns.length) :
    (∀ q, ns.find? (fun n => decide (qtyCond (maxNums ns) n)) = some q →
       (assignNumbers ns it).qty = q.num ∧
       (assignNumbers ns it).value = some (maxNums ns) ∧
       (∀ r, ns.find? (fun n => decide (rateCond q (maxNums ns) n)) = some r →
          (assignNumbers ns it).rate = some r) ∧
       (ns.find? (fun n => decide (rateCond q (maxNums ns) n)) = none →
          (assignNumbers ns it).rate = some (maxNums ns / q))) ∧
    (ns.find? (fun n => decide (qtyCond (maxNums ns) n)) = none →
       (assignNumbers ns it).qty = it.qty ∧
       (assignNumbers ns it).value = ns.getLast? ∧
       (assignNumbers ns it).rate = ns[ns.length - 2]?) := by
  match ns, h with
  | n0 :: n1 :: n2 :: rest, _ =>
    constructor
    · intro q hq
      have hb := List.find?_some hq
      have hcond : qtyCond (maxNums (n0 :: n1 :: n2 :: rest)) q :=
        of_decide_eq_true hb
      obtain ⟨hden, hpos, hlt, hltm⟩ := hcond
      have hq0 : ¬ q = 0 := ne_of_gt hpos
      simp only [assignNumbers, firstQty_eq_find, hq, hq0, if_false]
      rw [firstRate_eq_find]
      cases hfr : (n0 :: n1 :: n2 :: rest).find?
          (fun n => decide (rateCond q (maxNums (n0 :: n1 :: n2 :: rest)) n)) with
      | some r =>
        refine ⟨rfl, rfl, fun r' hr' => ?_, fun hn => ?_⟩
        · injection hr' with e; subst e; rfl
        · simp at hn
      | none =>
        have hmpos : 0 < maxNums (n0 :: n1 :: n2 :: rest) := lt_trans hpos hltm
        refine ⟨?_, ?_, fun r' hr' => ?_, fun _ => ?_⟩
        · simp [hpos, hmpos]
        · simp [hpos, hmpos]
        · simp at hr'
        · simp [hpos, hmpos]
    · intro hnone
      simp only [assignNumbers, firstQty_eq_find, hnone]
      rcases hrev : (n0 :: n1 :: n2 :: rest).reverse with _ | ⟨a, _ | ⟨b, l2⟩⟩
      · have := congrArg List.length hrev; simp at this
      · have := congrArg List.length hrev; simp at this
      · refine ⟨rfl, ?_, ?_⟩
        · rw [← List.head?_reverse, hrev]; rfl
        · have h1 : (1 : Nat) < (n0 :: n1 :: n2 :: rest).length := by simp
          have hrv := List.getElem?_reverse (l := n0 :: n1 :: n2 :: rest) (i := 1) h1
          rw [hrev] at hrv
          simp only [List.getElem?_cons_succ, List.getElem?_cons_zero] at hrv
          have e2 : (n0 :: n1 :: n2 :: rest).length - 1 - 1 =
              (n0 :: n1 :: n2 :: rest).length - 2 := by omega
          rw [e2] at hrv
          exact hrv

/-- C4: with exactly two collected plain numbers `a, b`, the parser sets
`qty = a` (as an integer) and `value = b` precisely when `a` is a whole
number strictly between 0 and 1000 and strictly less than `b`; otherwise
the larger of the two becomes the value while `qty` keeps its default 1
and `rate` stays unset. -/
theorem assignNumbers_two (a b : ℚ) (it : Item)
    (hqty : it.qty = 1) (hrate : it.rate = none) :
    (qtyCond b a →
       (assignNumbers [a, b] it).qty = a.num ∧
       (assignNumbers [a, b] it).value = some b ∧
       (assignNumbers [a, b] it).rate = none) ∧
    (¬ qtyCond b a →
       (assignNumbers [a, b] it).qty = 1 ∧
       (assignNumbers [a, b] it).value = some (maxQ a b) ∧
       (assignNumbers [a, b] it).rate = none) := by
  constructor
  · intro hc
    simp [assignNumbers, if_pos hc, hrate]
  · intro hc
    simp [assignNumbers, if_neg hc, hrate, hqty]

/-- Witness for C3, at `N = [2, 7, 50]`: quantity 2, value 50, rate 7. -/
theorem assignNumbers_three_or_more_witness :
    3 ≤ ([2, 7, 50] : List ℚ).length ∧
    (assignNumbers [2, 7, 50] blankItem).qty = 2 ∧
    (assignNumbers [2, 7, 50] blankItem).value = some 50 ∧
    (assignNumbers [2, 7, 50] blankItem).rate = some 7 := by
  have h := assignNumbers_three_or_more [2, 7, 50] blankItem (by decide)
  have hfq : ([2, 7, 50] : List ℚ).find?
      (fun n => decide (qtyCond (maxNums [2, 7, 50]) n)) = some 2 := by
    decide
  have h2 := h.1 2 hfq
  have hfr : ([2, 7, 50] : List ℚ).find?
      (fun n => decide (rateCond 2 (maxNums [2, 7, 50]) n)) = some 7 := by
    decide
  refine ⟨by decide, h2.1.trans (by decide),
    h2.2.1.trans (by decide), (h2.2.2.1 7 hfr)⟩

/-- Witness for C4, at `N = [4, 100]` (quantity branch) with the default
item state. -/
theorem assignNumbers_two_witness :
    blankItem.qty = 1 ∧ blankItem.rate = none ∧ qtyCond 100 4 ∧
    (assignNumbers [4, 100] blankItem).qty = 4 ∧
    (assignNumbers [4, 100] blankItem).value = some 100 ∧
    (assignNumbers [4, 100] blankItem).rate = none := by
  have h := (assignNumbers_two 4 100 blankItem rfl rfl).1 (by decide)
  exact ⟨rfl, rfl, by decide,
    h.1.trans (by decide), h.2.1.trans (by decide), h.2.2⟩

/-! ## C1: Scenario A -/

/-- Scenario A's item-start line, preceded by a representative item-section
header row (the parser only reaches item lines after finding a header that
scores at least 3 keyword categories). -/
def scenarioA_text : String :=
  "Sr  Item Code  Description  Type  Qty  Rate  Value\n1  550213  Industrial Valve 2\"  NOS  4  125000.00  500000.00"

/-- The item the code actually emits for Scenario A. -/
def scenarioA_item : Item :=
  { description := "Industrial Valve 2\"", code := some ("550213"),
    unit := some ("NOS"), qty := 2, rate := some 4, value := some 500000 }

set_option maxRecDepth 100000 in
/-- C1 counterexample: on Scenario A's line the parser emits exactly one
item with the claimed code, description and unit, but with `qty = 2` and
`rate = 4` — not `qty = 4`, `rate = 125000.00` as claimed.  The digit `2`
inside the description `Industrial Valve 2"` is collected as a plain
number and, being the first whole number in (0, 1000) below the maximum,
wins the quantity search; `4` then becomes the rate. -/
theorem scenarioA_counterexample :
    extract_line_items_from_text scenarioA_text = [scenarioA_item] ∧
    scenarioA_item.qty = 2 ∧ ¬ (scenarioA_item.qty = 4) ∧
    scenarioA_item.rate = some 4 ∧ ¬ (scenarioA_item.rate = some 125000) := by
  refine ⟨by decide, rfl, by decide, rfl,
    by decide⟩

set_option maxRecDepth 100000 in
/-- C1 amended: on Scenario A's line both `extract_line_items_from_text`
and `parse_item_multiline` emit exactly one item with code `550213`,
description `Industrial Valve 2"`, unit `NOS`, `qty = 2`, `rate = 4.00`
and `value = 500000.00`, consuming one line. -/
theorem scenarioA_amended :
    extract_line_items_from_text scenarioA_text = [scenarioA_item] ∧
    parse_item_multiline
      [("1  550213  Industrial Valve 2\"  NOS  4  125000.00  500000.00").data] 0 =
      (some scenarioA_item, 1) := by
  exact ⟨by decide, by decide⟩

/-! ## C9: Scenario C -/

set_option maxRecDepth 100000 in
/-- C9: the line `Net Value        TZS 1,250,000.00` yields the exact
subtotal 1250000 (the model's `ℚ` arithmetic mirrors the code's exact
`Decimal` parse after separator removal). -/
theorem net_value_exact_decimal :
    parse_invoice_subtotal ("Net Value        TZS 1,250,000.00") =
      some (1250000 : ℚ) := by
  decide

/-! ## C5: column ranges -/

theorem qAdd_eq (a b : ℚ) : qAdd a b = a + b := by
  unfold qAdd
  rw [Rat.mkRat_eq_div]
  have ha : ((a.den : ℚ)) ≠ 0 := by exact_mod_cast a.den_nz
  have hb : ((b.den : ℚ)) ≠ 0 := by exact_mod_cast b.den_nz
  have hden : ((a.den * b.den : Nat) : ℚ) ≠ 0 := by
    push_cast
    exact mul_ne_zero ha hb
  rw [div_eq_iff hden]
  have ea : a * (a.den : ℚ) = (a.num : ℚ) := by
    have h := Rat.num_div_den a
    rw [div_eq_iff ha] at h
    exact h.symm
  have eb : b * (b.den : ℚ) = (b.num : ℚ) := by
    have h := Rat.num_div_den b
    rw [div_eq_iff hb] at h
    exact h.symm
  push_cast
  rw [← ea, ← eb]
  ring

theorem qSub_eq (a b : ℚ) : qSub a b = a - b := by
  unfold qSub
  rw [qAdd_eq, sub_eq_add_neg]

theorem qHalf_eq (a : ℚ) : qHalf a = a / 2 := by
  unfold qHalf
  rw [Rat.mkRat_eq_div]
  push_cast
  conv_rhs => rw [← Rat.num_div_den a]
  rw [div_div]

theorem buildRanges_length (cols : List (String × ℚ)) :
    (buildRanges cols).length = cols.length := by
  simp [buildRanges]

theorem buildRanges_getD (cols : List (String × ℚ)) (i : Nat)
    (h : i < cols.length) (d : String × ℚ × ℚ) :
    (buildRanges cols).getD i d = rangeAt cols i := by
  unfold buildRanges
  rw [List.getD, List.get?_eq_getElem?, List.getElem?_map, List.getElem?_range h]
  rfl

theorem rangeAt_left0 (cols : List (String × ℚ)) :
    (rangeAt cols 0).2.1 = (cols.getD 0 (("", 0))).2 - 2 := by
  unfold rangeAt
  simp [qSub_eq]

theorem rangeAt_left_mid (cols : List (String × ℚ)) (i : Nat) (h0 : i ≠ 0) :
    (rangeAt cols i).2.1 =
      ((cols.getD (i - 1) (("", 0))).2 + (cols.getD i (("", 0))).2) / 2 := by
  unfold rangeAt
  rw [if_neg h0]
  by_cases hl : i = cols.length - 1 <;> simp [hl, qHalf_eq, qAdd_eq, add_comm]

theorem rangeAt_right_mid (cols : List (String × ℚ)) (i : Nat)
    (h : i + 1 < cols.length) :
    (rangeAt cols i).2.2 =
      ((cols.getD (i + 1) (("", 0))).2 + (cols.getD i (("", 0))).2) / 2 := by
  unfold rangeAt
  by_cases h0 : i = 0
  · subst h0; simp [h, qHalf_eq, qAdd_eq]
  · have hlast : i ≠ cols.length - 1 := by omega
    rw [if_neg h0, if_neg hlast]
    simp [qHalf_eq, qAdd_eq]

theorem rangeAt_right_last (cols : List (String × ℚ)) (hne : cols ≠ []) :
    (rangeAt cols (cols.length - 1)).2.2 =
      (cols.getD (cols.length - 1) (("", 0))).2 + 2000 := by
  have hlen : 0 < cols.length := List.length_pos.mpr hne
  have h2 : ¬ (cols.length - 1 + 1 < cols.length) := by omega
  unfold rangeAt
  by_cases h0 : cols.length - 1 = 0
  · rw [if_pos h0, if_neg h2]
    simp [qAdd_eq]
  · rw [if_neg h0, if_pos rfl]
    simp [qAdd_eq]

theorem chain'_le_getD {cols : List (String × ℚ)}
    (hs : List.Chain' (fun a b => a.2 ≤ b.2) cols) (i : Nat)
    (h : i + 1 < cols.length) :
    (cols.getD i (("", 0))).2 ≤ (cols.getD (i + 1) (("", 0))).2 := by
  rw [List.getD_eq_getElem _ _ (by omega), List.getD_eq_getElem _ _ h]
  have := List.chain'_iff_get.mp hs i (by omega)
  simpa [List.get_eq_getElem] using this

/-- C5 counterexample: on the sorted anchors `[("sr", 100), ("value", 200)]`
the first range's lower bound is `98`, only 2 units left of its anchor —
not about 2000 units as claimed (the −2000 sentinel is applied only on the
right of the last column; the first column gets a fixed −2 offset). -/
theorem buildRanges_counterexample :
    buildRanges [(("sr"), (100 : ℚ)), (("value"), 200)] =
      [(("sr"), 98, 150), (("value"), 150, 2200)] ∧
    (98 : ℚ) = 100 - 2 ∧ ¬ ((98 : ℚ) ≤ 100 - 1000) := by
  exact ⟨by decide, by norm_num, by norm_num⟩

/-- C5 amended: for every non-empty anchor list sorted by x, the derived
ranges use midpoints between adjacent anchors as interior boundaries, the
first range's lower bound is 2 units left of its anchor, the last range's
upper bound 2000 units right of its anchor, and the ranges are contiguous
(each range's upper bound is the next range's lower bound) and
non-degenerate (lower bound ≤ upper bound), hence non-overlapping as the
half-open intervals the cell assignment reads them as. -/
theorem buildRanges_amended (cols : List (String × ℚ)) (hne : cols ≠ [])
    (hs : List.Chain' (fun a b => a.2 ≤ b.2) cols) :
    (buildRanges cols).length = cols.length ∧
    (∀ i, i + 1 < cols.length →
      ((buildRanges cols).getD i (("", 0, 0))).2.2 =
        ((buildRanges cols).getD (i + 1) (("", 0, 0))).2.1) ∧
    (∀ i, i < cols.length →
      ((buildRanges cols).getD i (("", 0, 0))).2.1 ≤
        ((buildRanges cols).getD i (("", 0, 0))).2.2) ∧
    ((buildRanges cols).getD 0 (("", 0, 0))).2.1 =
      (cols.getD 0 (("", 0))).2 - 2 ∧
    ((buildRanges cols).getD (cols.length - 1) (("", 0, 0))).2.2 =
      (cols.getD (cols.length - 1) (("", 0))).2 + 2000 ∧
    (∀ i, 0 < i → i < cols.length →
      ((buildRanges cols).getD i (("", 0, 0))).2.1 =
        ((cols.getD (i - 1) (("", 0))).2 + (cols.getD i (("", 0))).2) / 2) := by
  have hlen : 0 < cols.length := List.length_pos.mpr hne
  refine ⟨buildRanges_length cols, ?_, ?_, ?_, ?_, ?_⟩
  · intro i h
    rw [buildRanges_getD _ _ (by omega), buildRanges_getD _ _ h,
      rangeAt_right_mid _ _ h, rangeAt_left_mid _ _ (by omega)]
    have e : i + 1 - 1 = i := by omega
    rw [e]
    ring
  · intro i h
    rw [buildRanges_getD _ _ h]
    by_cases h0 : i = 0
    · subst h0
      rw [rangeAt_left0]
      by_cases h1 : 1 < cols.length
      · rw [rangeAt_right_mid _ _ (by omega)]
        have := chain'_le_getD hs 0 (by omega)
        linarith
      · have e : (0 : Nat) = cols.length - 1 := by omega
        rw [e, rangeAt_right_last _ hne, ← e]
        linarith
    · rw [rangeAt_left_mid _ _ h0]
      by_cases hl : i = cols.length - 1
      · rw [hl, rangeAt_right_last _ hne, ← hl]
        have := chain'_le_getD hs (i - 1) (by omega)
        have e : i - 1 + 1 = i := by omega
        rw [e] at this
        linarith
      · rw [rangeAt_right_mid _ _ (by omega)]
        have h1 := chain'_le_getD hs (i - 1) (by omega)
        have e : i - 1 + 1 = i := by omega
        rw [e] at h1
        have h2 := chain'_le_getD hs i (by omega)
        linarith
  · rw [buildRanges_getD _ _ hlen, rangeAt_left0]
  · rw [buildRanges_getD _ _ (by omega), rangeAt_right_last _ hne]
  · intro i h0 h
    rw [buildRanges_getD _ _ h, rangeAt_left_mid _ _ (by omega)]

/-- Witness for C5 at the sorted anchors `[("qty", 10), ("rate", 30),
("value", 50)]`: the first range's upper bound equals the second range's
lower bound. -/
theorem buildRanges_amended_witness :
    ([(("qty"), (10 : ℚ)), (("rate"), 30), (("value"), 50)] ≠
      ([] : List (String × ℚ))) ∧
    ((buildRanges [(("qty"), (10 : ℚ)), (("rate"), 30), (("value"), 50)]).getD 0
        (("", 0, 0))).2.2 =
      ((buildRanges [(("qty"), (10 : ℚ)), (("rate"), 30), (("value"), 50)]).getD 1
        (("", 0, 0))).2.1 := by
  refine ⟨by simp, ?_⟩
  exact (buildRanges_amended _ (by simp)
    (by simp [List.chain'_cons, List.chain'_singleton]; norm_num)).2.1 0 (by simp)

/-! ## C2, C8, C10: the orchestrator -/

theorem truthyQOpt_header (o : Option ℚ) :
    truthyQOpt (if truthyQOpt o then o else none) = truthyQOpt o := by
  cases o with
  | none => rfl
  | some q => by_cases h : q = 0 <;> simp [truthyQOpt, h]

theorem truthyQOpt_iff (o : Option ℚ) :
    truthyQOpt o = true ↔ ∃ t, o = some t ∧ t ≠ 0 := by
  cases o <;> simp [truthyQOpt]

theorem finalizeParsed_success_eq (text : String) (parsed : ParsedData)
    (coordItems : List Item) :
    (finalizeParsed text parsed coordItems).success =
      (truthySOpt parsed.customer_name || truthySOpt parsed.invoice_no ||
       !(if coordItems.isEmpty then parsed.items else coordItems).isEmpty ||
       truthyQOpt parsed.total) := by
  unfold finalizeParsed buildHeader
  have e1 : decide (0 < ((if coordItems.isEmpty then parsed.items else
      coordItems).map formatItem).length) =
      !(if coordItems.isEmpty then parsed.items else coordItems).isEmpty := by
    generalize (if coordItems.isEmpty then parsed.items else coordItems) = l
    cases l <;> simp
  have e2 := truthyQOpt_header parsed.total
  simp only [e1, e2]
  cases hc : (truthySOpt parsed.customer_name || truthySOpt parsed.invoice_no ||
      !(if coordItems.isEmpty then parsed.items else coordItems).isEmpty ||
      truthyQOpt parsed.total) <;> simp [hc, failRec]

theorem finalizeParsed_failure (text : String) (parsed : ParsedData)
    (coordItems : List Item)
    (h : (finalizeParsed text parsed coordItems).success = false) :
    (finalizeParsed text parsed coordItems).error = some ("parsing_failed") ∧
    (finalizeParsed text parsed coordItems).raw_text = text := by
  rw [finalizeParsed_success_eq] at h
  unfold finalizeParsed buildHeader failRec
  have e1 : decide (0 < ((if coordItems.isEmpty then parsed.items else
      coordItems).map formatItem).length) =
      !(if coordItems.isEmpty then parsed.items else coordItems).isEmpty := by
    generalize (if coordItems.isEmpty then parsed.items else coordItems) = l
    cases l <;> simp
  have e2 := truthyQOpt_header parsed.total
  simp only [e1, e2, h]
  simp

/-- The front end reduces to the parsing stage under the C2/C8 hypotheses. -/
theorem extract_from_bytes_reaches_parsing (file_bytes : List Nat)
    (filename text : String)
    (parsing : Except String (ParsedData × List Item))
    (h1 : file_bytes ≠ []) (h2 : isImageName filename = false)
    (h3 : isPdfFile file_bytes filename = true)
    (h4 : trimChars text.data ≠ []) :
    extract_from_bytes file_bytes filename (.ok text) parsing =
      (match parsing with
       | .error _ =>
         failRec ("parsing_failed")
           ("Could not extract structured data from PDF.") text
       | .ok (parsed, coordItems) => finalizeParsed text parsed coordItems) := by
  have e1 : file_bytes.isEmpty = false := by
    cases file_bytes with
    | nil => exact absurd rfl h1
    | cons a l => rfl
  have e4 : (trimChars text.data).isEmpty = false := by
    cases htc : trimChars text.data with
    | nil => exact absurd htc h4
    | cons a l => rfl
  unfold extract_from_bytes
  simp [e1, h2, h3, e4]

/-- C2 counterexample: for the text `Gross Value 0` the parsing stage
produces `total = Decimal('0')` — a present total — yet `extract_from_bytes`
reports `success = false` with `parsing_failed`, because a zero `Decimal`
is falsy in the `has_data` test.  The `total` and `items` fields of the
parsed data are computed by the model's own extraction functions on that
text; the remaining header fields are `None` (the text contains none of
their labels). -/
theorem extract_success_total_zero_counterexample :
    (parse_invoice_total ("Gross Value 0") = some 0 ∧
     extract_line_items_from_text ("Gross Value 0") = []) ∧
    (extract_from_bytes [1] ("a.pdf") (.ok ("Gross Value 0"))
        (.ok ({ emptyParsed with
                  total := parse_invoice_total ("Gross Value 0"),
                  items := extract_line_items_from_text ("Gross Value 0") },
              []))).success = false ∧
    (extract_from_bytes [1] ("a.pdf") (.ok ("Gross Value 0"))
        (.ok ({ emptyParsed with
                  total := parse_invoice_total ("Gross Value 0"),
                  items := extract_line_items_from_text ("Gross Value 0") },
              []))).error = some ("parsing_failed") := by
  exact ⟨⟨by decide, by decide⟩,
    by decide, by decide⟩

/-- C2 amended: when text extraction succeeded (non-blank text) and the
parsing stage completed, `success` is true exactly when the parsed data
has a non-empty customer name, a non-empty invoice number, a non-empty
final item list (coordinate items if any, else text items), or a nonzero
total (a parsed total of exactly 0 is treated as absent); otherwise the
record carries `parsing_failed` and still includes the extracted text. -/
theorem extract_success_iff_amended (file_bytes : List Nat)
    (filename text : String) (parsed : ParsedData) (coordItems : List Item)
    (h1 : file_bytes ≠ []) (h2 : isImageName filename = false)
    (h3 : isPdfFile file_bytes filename = true)
    (h4 : trimChars text.data ≠ []) :
    ((extract_from_bytes file_bytes filename (.ok text)
        (.ok (parsed, coordItems))).success = true ↔
      (truthySOpt parsed.customer_name = true ∨
       truthySOpt parsed.invoice_no = true ∨
       (if coordItems.isEmpty then parsed.items else coordItems) ≠ [] ∨
       (∃ t, parsed.total = some t ∧ t ≠ 0))) ∧
    ((extract_from_bytes file_bytes filename (.ok text)
        (.ok (parsed, coordItems))).success = false →
      (extract_from_bytes file_bytes filename (.ok text)
        (.ok (parsed, coordItems))).error = some ("parsing_failed") ∧
      (extract_from_bytes file_bytes filename (.ok text)
        (.ok (parsed, coordItems))).raw_text = text) := by
  rw [extract_from_bytes_reaches_parsing file_bytes filename text _ h1 h2 h3 h4]
  constructor
  · rw [finalizeParsed_success_eq]
    simp only [Bool.or_eq_true, truthyQOpt_iff]
    constructor
    · intro h
      rcases h with ((h | h) | h) | h
      · exact Or.inl h
      · exact Or.inr (Or.inl h)
      · refine Or.inr (Or.inr (Or.inl ?_))
        intro hc
        rw [hc] at h
        simp at h
      · exact Or.inr (Or.inr (Or.inr h))
    · intro h
      rcases h with h | h | h | h
      · exact Or.inl (Or.inl (Or.inl h))
      · exact Or.inl (Or.inl (Or.inr h))
      · refine Or.inl (Or.inr ?_)
        cases hl : (if coordItems.isEmpty then parsed.items else coordItems) with
        | nil => exact absurd hl h
        | cons a l => simp
      · exact Or.inr h
  · exact finalizeParsed_failure text parsed coordItems

/-- Witness for C2 at a parsed record with only a customer name. -/
theorem extract_success_iff_amended_witness :
    (([1] : List Nat) ≠ []) ∧ isImageName ("a.pdf") = false ∧
    isPdfFile [1] ("a.pdf") = true ∧ trimChars ("hello").data ≠ [] ∧
    (extract_from_bytes [1] ("a.pdf") (.ok ("hello"))
      (.ok ({ emptyParsed with customer_name := some ("ACME TRADERS LTD") },
            []))).success = true := by
  refine ⟨by simp, by decide, by decide, by decide, ?_⟩
  exact (extract_success_iff_amended [1] ("a.pdf") ("hello")
      { emptyParsed with customer_name := some ("ACME TRADERS LTD") } []
      (by simp) (by decide) (by decide) (by decide)).1.mpr
    (Or.inl (by decide))

/-- C8: when text extraction succeeded but the parsing stage raises, the
exception is not propagated: the result is `success = false`, error
`parsing_failed`, the fixed human-readable message, and `raw_text` equal
to the extracted text. -/
theorem parsing_exception_downgraded (file_bytes : List Nat)
    (filename text e : String)
    (h1 : file_bytes ≠ []) (h2 : isImageName filename = false)
    (h3 : isPdfFile file_bytes filename = true)
    (h4 : trimChars text.data ≠ []) :
    extract_from_bytes file_bytes filename (.ok text) (.error e) =
      { success := false, error := some ("parsing_failed"),
        message := "Could not extract structured data from PDF.",
        ocr_available := false, header := none, items := [],
        raw_text := text } := by
  rw [extract_from_bytes_reaches_parsing file_bytes filename text _ h1 h2 h3 h4]
  rfl

/-- Witness for C8 at a concrete PDF input and exception. -/
theorem parsing_exception_downgraded_witness :
    (([37, 80, 68, 70, 120] : List Nat) ≠ []) ∧
    isImageName ("inv.pdf") = false ∧
    isPdfFile [37, 80, 68, 70, 120] ("inv.pdf") = true ∧
    trimChars ("Invoice text").data ≠ [] ∧
    extract_from_bytes [37, 80, 68, 70, 120] ("inv.pdf")
        (.ok ("Invoice text")) (.error ("boom")) =
      { success := false, error := some ("parsing_failed"),
        message := "Could not extract structured data from PDF.",
        ocr_available := false, header := none, items := [],
        raw_text := "Invoice text" } := by
  refine ⟨by simp, by decide, by decide, by decide, ?_⟩
  exact parsing_exception_downgraded [37, 80, 68, 70, 120] ("inv.pdf")
    ("Invoice text") ("boom") (by simp) (by decide) (by decide) (by decide)

/-- C10: a non-empty buffer whose (lower-cased) filename carries an image
extension is rejected with `image_file_not_supported` before any
extraction is attempted — the result does not depend on the extraction or
parsing outcomes, even when the buffer begins with the `%PDF` magic. -/
theorem image_extension_priority (file_bytes : List Nat) (filename : String)
    (pdfText : Except String String)
    (parsing : Except String (ParsedData × List Item))
    (h1 : file_bytes ≠ []) (h2 : isImageName filename = true) :
    extract_from_bytes file_bytes filename pdfText parsing =
      { success := false, error := some ("image_file_not_supported"),
        message := "Image files are not supported. Please convert to PDF or enter details manually.",
        ocr_available := false, header := none, items := [],
        raw_text := "" } := by
  have e1 : file_bytes.isEmpty = false := by
    cases file_bytes with
    | nil => exact absurd rfl h1
    | cons a l => rfl
  unfold extract_from_bytes
  simp [e1, h2, failRec]

/-- Witness for C10: a buffer that begins with the `%PDF` magic but whose
filename ends in `.PNG` (upper-case, exercising the lower-casing) is
still rejected as an image. -/
theorem image_extension_priority_witness :
    ([37, 80, 68, 70, 45] : List Nat).take 4 = pdfMagic ∧
    (([37, 80, 68, 70, 45] : List Nat) ≠ []) ∧
    isImageName ("scan.PNG") = true ∧
    extract_from_bytes [37, 80, 68, 70, 45] ("scan.PNG")
        (.error ("unused")) (.ok (emptyParsed, [])) =
      { success := false, error := some ("image_file_not_supported"),
        message := "Image files are not supported. Please convert to PDF or enter details manually.",
        ocr_available := false, header := none, items := [],
        raw_text := "" } := by
  refine ⟨by decide, by simp, by decide, ?_⟩
  exact image_extension_priority [37, 80, 68, 70, 45] ("scan.PNG")
    (.error ("unused")) (.ok (emptyParsed, [])) (by simp) (by decide)

/-! ## C6 and C7: invariants of the emitted items -/

theorem qOfNat_nonneg (n : Nat) : 0 ≤ qOfNat n := by
  unfold qOfNat
  rw [Rat.mkRat_eq_div]
  apply div_nonneg
  · exact Int.cast_nonneg.mpr (Int.ofNat_nonneg n)
  · norm_num

theorem qOfDigits_nonneg (ip f : List Char) : 0 ≤ qOfDigits ip f := by
  unfold qOfDigits
  rw [Rat.mkRat_eq_div]
  apply div_nonneg
  · exact Int.cast_nonneg.mpr (Int.ofNat_nonneg _)
  · positivity

theorem numVal_nonneg (tok : List Char) : 0 ≤ numVal tok := by
  unfold numVal
  dsimp only
  split
  · exact qOfDigits_nonneg _ _
  · exact qOfNat_nonneg _

theorem collectNums_nonneg (fuel : Nat) :
    ∀ s : List Char, ∀ q ∈ (collectNums fuel s).1, 0 ≤ q := by
  induction fuel with
  | zero => intro s q hq; simp [collectNums] at hq
  | succ n ih =>
    intro s q hq
    match s with
    | [] => simp [collectNums] at hq
    | c :: rest =>
      rw [collectNums] at hq
      by_cases hd : isDigitC c
      · simp only [hd, if_true] at hq
        rcases hp : numToken (c :: rest) with ⟨tok, after⟩
        rw [hp] at hq
        rcases hcn : collectNums n after with ⟨ns, ps⟩
        rw [hcn] at hq
        have ihafter := ih after
        rw [hcn] at ihafter
        by_cases hpc : pctAfter after
        · simp only [hpc, if_true] at hq
          exact ihafter q hq
        · rw [if_neg hpc] at hq
          dsimp only at hq
          rw [List.mem_cons] at hq
          rcases hq with rfl | hq
          · exact numVal_nonneg tok
          · exact ihafter q hq
      · simp only [hd, if_false] at hq
        exact ih rest q hq

theorem lineNumbers_nonneg (s : List Char) : ∀ q ∈ lineNumbers s, 0 ≤ q :=
  collectNums_nonneg (s.length + 1) s

/-- The role assignment never lowers `qty` below 1: every branch either
keeps the incoming `qty` (default 1) or installs a positive whole
number. -/
theorem assignNumbers_qty_ge {ns : List ℚ} {it : Item} (h : 1 ≤ it.qty) :
    1 ≤ (assignNumbers ns it).qty := by
  match ns with
  | [] => exact h
  | [n] => exact h
  | [n0, n1] =>
    by_cases hc : qtyCond n1 n0
    · have hpos : 0 < n0.num := Rat.num_pos.mpr hc.2.1
      simp only [assignNumbers, if_pos hc]
      omega
    · simp only [assignNumbers, if_neg hc]
      exact h
  | n0 :: n1 :: n2 :: rest =>
    simp only [assignNumbers]
    cases hfq : firstQty (maxNums (n0 :: n1 :: n2 :: rest))
        (n0 :: n1 :: n2 :: rest) with
    | none =>
      rcases hrev : (n0 :: n1 :: n2 :: rest).reverse with _ | ⟨a, _ | ⟨b, l2⟩⟩ <;>
        exact h
    | some qc =>
      have hcond := firstQty_some hfq
      have hq0 : ¬ qc = 0 := ne_of_gt hcond.2.1
      have hpos : 0 < qc.num := Rat.num_pos.mpr hcond.2.1
      simp only [hq0, if_false]
      cases hfr : firstRate qc (maxNums (n0 :: n1 :: n2 :: rest))
          (n0 :: n1 :: n2 :: rest) with
      | some rc =>
        show (1 : Int) ≤ qc.num
        omega
      | none =>
        by_cases hcc : 0 < qc ∧ 0 < maxNums (n0 :: n1 :: n2 :: rest)
        · rw [if_pos hcc]
          show (1 : Int) ≤ qc.num
          omega
        · rw [if_neg hcc]
          show (1 : Int) ≤ qc.num
          omega

/-- The role assignment keeps `rate` and `value` non-negative when all
collected numbers are non-negative. -/
theorem assignNumbers_nonneg {ns : List ℚ} {it : Item}
    (hns : ∀ q ∈ ns, 0 ≤ q)
    (hr : ∀ r, it.rate = some r → 0 ≤ r)
    (hv : ∀ v, it.value = some v → 0 ≤ v) :
    (∀ r, (assignNumbers ns it).rate = some r → 0 ≤ r) ∧
    (∀ v, (assignNumbers ns it).value = some v → 0 ≤ v) := by
  match ns with
  | [] => exact ⟨hr, hv⟩
  | [n] =>
    refine ⟨hr, fun v hv' => ?_⟩
    simp only [assignNumbers] at hv'
    injection hv' with e
    rw [← e]
    exact hns n (by simp)
  | [n0, n1] =>
    by_cases hc : qtyCond n1 n0
    · simp only [assignNumbers, if_pos hc]
      refine ⟨hr, fun v hv' => ?_⟩
      injection hv' with e
      rw [← e]
      exact hns n1 (by simp)
    · simp only [assignNumbers, if_neg hc]
      refine ⟨hr, fun v hv' => ?_⟩
      injection hv' with e
      rw [← e]
      rcases maxQ_cases n0 n1 with hm | hm <;> rw [hm]
      · exact hns n0 (by simp)
      · exact hns n1 (by simp)
  | n0 :: n1 :: n2 :: rest =>
    have hmax : 0 ≤ maxNums (n0 :: n1 :: n2 :: rest) := by
      unfold maxNums
      exact foldl_maxQ_nonneg (hns n0 (by simp)) _
    have hfall :
        (∀ r, ((match (n0 :: n1 :: n2 :: rest).reverse with
                | [] => it
                | [a] => { it with value := some a }
                | a :: b :: _ => { it with value := some a, rate := some b }) :
            Item).rate = some r → 0 ≤ r) ∧
        (∀ v, ((match (n0 :: n1 :: n2 :: rest).reverse with
                | [] => it
                | [a] => { it with value := some a }
                | a :: b :: _ => { it with value := some a, rate := some b }) :
            Item).value = some v → 0 ≤ v) := by
      rcases hrev : (n0 :: n1 :: n2 :: rest).reverse with _ | ⟨a, _ | ⟨b, l2⟩⟩
      · exact ⟨hr, hv⟩
      · refine ⟨hr, fun v hv' => ?_⟩
        injection hv' with e
        rw [← e]
        refine hns a (List.mem_reverse.mp ?_)
        rw [hrev]; simp
      · constructor
        · intro r hr'
          injection hr' with e
          rw [← e]
          refine hns b (List.mem_reverse.mp ?_)
          rw [hrev]; simp
        · intro v hv'
          injection hv' with e
          rw [← e]
          refine hns a (List.mem_reverse.mp ?_)
          rw [hrev]; simp
    simp only [assignNumbers]
    cases hfq : firstQty (maxNums (n0 :: n1 :: n2 :: rest))
        (n0 :: n1 :: n2 :: rest) with
    | none => exact hfall
    | some qc =>
      have hcond := firstQty_some hfq
      by_cases hq0 : qc = 0
      · simp only [hq0, if_true]
        exact hfall
      · simp only [hq0, if_false]
        cases hfr : firstRate qc (maxNums (n0 :: n1 :: n2 :: rest))
            (n0 :: n1 :: n2 :: rest) with
        | some rc =>
          have hrc := firstRate_some hfr
          refine ⟨fun r hr' => ?_, fun v hv' => ?_⟩
          · injection hr' with e
            rw [← e]
            exact le_of_lt hrc.2.2
          · injection hv' with e
            rw [← e]
            exact hmax
        | none =>
          have hpos : 0 < qc := hcond.2.1
          have hmpos : 0 < maxNums (n0 :: n1 :: n2 :: rest) :=
            lt_trans hpos hcond.2.2.2
          simp only [hpos, hmpos, and_self, if_true]
          refine ⟨fun r hr' => ?_, fun v hv' => ?_⟩
          · injection hr' with e
            rw [← e]
            exact le_of_lt (div_pos hmpos hpos)
          · injection hv' with e
            rw [← e]
            exact hmax

/-- Every item `parse_item_multiline` emits has `qty ≥ 1` and non-negative
`rate`/`value` (when present). -/
theorem parse_item_multiline_invariant {all_lines : List (List Char)}
    {i : Nat} {it : Item} {k : Nat}
    (h : parse_item_multiline all_lines i = (some it, k)) :
    1 ≤ it.qty ∧ (∀ r, it.rate = some r → 0 ≤ r) ∧
    (∀ v, it.value = some v → 0 ≤ v) := by
  unfold parse_item_multiline at h
  rcases hd : all_lines.drop i with _ | ⟨current, later⟩ <;> rw [hd] at h <;>
    dsimp only at h
  · exact absurd h (by simp)
  · rcases hsr : srMatch current with _ | ⟨sr, rest0⟩ <;> rw [hsr] at h <;>
      dsimp only at h
    · exact absurd h (by simp)
    · rcases hcm : codeMatch rest0 with ⟨item_code, rest1⟩
      rw [hcm] at h
      dsimp only at h
      rcases hcl : contLoop (Option.map (fun p => p.2)
          (findWordAlt unitAlts1 rest1)) later with ⟨parts, unit1, extra⟩
      rw [hcl] at h
      dsimp only at h
      split at h
      · exact absurd h (by simp)
      · rw [Prod.mk.injEq] at h
        obtain ⟨h1, _⟩ := h
        injection h1 with h1
        rw [← h1]
        exact ⟨assignNumbers_qty_ge (le_refl (1 : Int)),
          assignNumbers_nonneg (lineNumbers_nonneg rest1)
            (fun r hr => Option.noConfusion hr)
            (fun v hv => Option.noConfusion hv)⟩

/-- The item-section loop only emits items produced by
`parse_item_multiline`. -/
theorem itemsLoop_invariant {cleaned : List (List Char)} :
    ∀ fuel i it, it ∈ itemsLoop cleaned i fuel →
      1 ≤ it.qty ∧ (∀ r, it.rate = some r → 0 ≤ r) ∧
      (∀ v, it.value = some v → 0 ≤ v) := by
  intro fuel
  induction fuel with
  | zero => intro i it h; simp [itemsLoop] at h
  | succ n ih =>
    intro i it h
    rw [itemsLoop] at h
    rcases hd : cleaned.drop i with _ | ⟨line, restl⟩ <;> rw [hd] at h
    · simp at h
    · by_cases h1 : sectionStop line
      · simp [h1] at h
      · simp only [h1, if_false] at h
        by_cases h2 : headerOnlyLine line
        · simp only [h2, if_true] at h
          exact ih (i + 1) it h
        · simp only [h2, if_false] at h
          by_cases h3 : srTest line
          · simp only [h3, if_true] at h
            rcases hp : parse_item_multiline cleaned i with ⟨oit, k⟩
            rw [hp] at h
            cases oit with
            | some it' =>
              simp only [Bool.false_eq_true, if_false] at h
              rw [List.mem_cons] at h
              rcases h with rfl | h
              · exact parse_item_multiline_invariant hp
              · exact ih (i + k) it h
            | none => exact ih (i + k) it h
          · simp only [h3, if_false] at h
            exact ih (i + 1) it h

theorem extract_line_items_invariant {text : String} {it : Item}
    (h : it ∈ extract_line_items_from_text text) :
    1 ≤ it.qty ∧ (∀ r, it.rate = some r → 0 ≤ r) ∧
    (∀ v, it.value = some v → 0 ≤ v) := by
  unfold extract_line_items_from_text at h
  dsimp only at h
  rcases hf : (((splitNl text.data).map trimChars).filter
      (fun l => !l.isEmpty)).findIdx? (fun l => decide (3 ≤ scoreItemHeader l))
    with _ | idx <;> rw [hf] at h
  · simp at h
  · exact itemsLoop_invariant _ _ it h

/-- Every item a coordinate-extractor row emits has `qty ≥ 1`. -/
theorem rowItem_qty {ranges : List (String × ℚ × ℚ)} {lw : List Word}
    {it : Item} (h : rowItem ranges lw = some it) : 1 ≤ it.qty := by
  unfold rowItem at h
  dsimp only at h
  repeat' split at h
  all_goals first
    | exact Option.noConfusion h
    | injection h with h
  all_goals rw [← h]
  all_goals dsimp only
  all_goals omega

theorem bodyLoop_qty {ranges : List (String × ℚ × ℚ)} :
    ∀ rows it, it ∈ bodyLoop ranges rows → 1 ≤ it.qty := by
  intro rows
  induction rows with
  | nil => intro it h; simp [bodyLoop] at h
  | cons lw rest ih =>
    intro it h
    rw [bodyLoop] at h
    by_cases hs : coordStop (joinedText lw)
    · simp [hs] at h
    · simp only [hs, if_false] at h
      rcases hri : rowItem ranges lw with _ | it'
      · rw [hri] at h
        exact ih it h
      · rw [hri] at h
        simp only [Bool.false_eq_true, if_false] at h
        rw [List.mem_cons] at h
        rcases h with rfl | h
        · exact rowItem_qty hri
        · exact ih it h

theorem pageItems_qty {ws : List Word} {it : Item}
    (h : it ∈ pageItems ws) : 1 ≤ it.qty := by
  unfold pageItems at h
  split at h
  · simp at h
  · dsimp only at h
    rcases hh : findHeader (sortBy (fun l1 l2 =>
        decide ((l1.headD wDefault).y0 < (l2.headD wDefault).y0))
      ((groupByBL ws).map (sortBy (fun u w => decide (u.x0 < w.x0)))))
      with _ | ⟨hw, after⟩ <;> rw [hh] at h <;> dsimp only at h
    · simp at h
    · split at h
      · simp at h
      · exact bodyLoop_qty after it h

theorem extract_items_with_coordinates_qty {pages : List (List Word)}
    {it : Item} (h : it ∈ extract_items_with_coordinates pages) :
    1 ≤ it.qty := by
  unfold extract_items_with_coordinates at h
  rw [List.mem_flatten] at h
  obtain ⟨l, hl, hit⟩ := h
  rw [List.mem_map] at hl
  obtain ⟨ws, _, hws⟩ := hl
  rw [← hws] at hit
  exact pageItems_qty hit

/-- C7: every emitted LineItem — from the coordinate-based table extractor
and from the text line-item parser alike — has an integer `qty ≥ 1`. -/
theorem items_qty_ge_one :
    (∀ (pages : List (List Word)) (it : Item),
       it ∈ extract_items_with_coordinates pages → 1 ≤ it.qty) ∧
    (∀ (text : String) (it : Item),
       it ∈ extract_line_items_from_text text → 1 ≤ it.qty) :=
  ⟨fun _ _ h => extract_items_with_coordinates_qty h,
   fun _ _ h => (extract_line_items_invariant h).1⟩

set_option maxRecDepth 100000 in
/-- Witness for C7, at the single-number Scenario E line. -/
theorem items_qty_ge_one_witness :
    ({ description := "Misc Service", code := none, unit := none, qty := 1,
       rate := none, value := some 75000 } : Item) ∈
      extract_line_items_from_text
        ("Sr  Item Code  Description  Qty  Rate\n3  Misc Service  75000") ∧
    1 ≤ ({ description := "Misc Service", code := none, unit := none,
           qty := 1, rate := none, value := some 75000 } : Item).qty :=
  ⟨by decide, items_qty_ge_one.2
    ("Sr  Item Code  Description  Qty  Rate\n3  Misc Service  75000") _
    (by decide)⟩

set_option maxRecDepth 100000 in
/-- C6 counterexample: the coordinate-based extractor emits an item whose
rate is negative.  The `to_dec` cell parser keeps a leading minus sign
(`re.sub(r'[^\d\.-]', '', s)` preserves `-`), so a rate cell reading
`-5.00` yields `rate = Decimal('-5.00') < 0` on an otherwise ordinary
table row. -/
theorem coord_rate_negative_counterexample :
    extract_items_with_coordinates
      [[{ x0 := 0, y0 := 0, x1 := 10, y1 := 10, text := "Code", block := 0, line := 0 },
        { x0 := 100, y0 := 0, x1 := 110, y1 := 10, text := "Description", block := 0, line := 0 },
        { x0 := 200, y0 := 0, x1 := 210, y1 := 10, text := "Qty", block := 0, line := 0 },
        { x0 := 300, y0 := 0, x1 := 310, y1 := 10, text := "Rate", block := 0, line := 0 },
        { x0 := 400, y0 := 0, x1 := 410, y1 := 10, text := "Value", block := 0, line := 0 },
        { x0 := 0, y0 := 10, x1 := 10, y1 := 20, text := "123", block := 0, line := 1 },
        { x0 := 100, y0 := 10, x1 := 110, y1 := 20, text := "Widget", block := 0, line := 1 },
        { x0 := 200, y0 := 10, x1 := 210, y1 := 20, text := "2", block := 0, line := 1 },
        { x0 := 300, y0 := 10, x1 := 310, y1 := 20, text := "-5.00", block := 0, line := 1 },
        { x0 := 400, y0 := 10, x1 := 410, y1 := 20, text := "10.00", block := 0, line := 1 }]] =
      [{ description := "Widget", code := some ("123"), unit := none,
         qty := 2, rate := some (-5), value := some 10 }] ∧
    ((-5 : ℚ) < 0) := by
  exact ⟨by decide, by norm_num⟩

/-- C6 amended: every LineItem emitted by the text line-item parser has
non-negative `rate` and `value` whenever they are present (its numbers
come from an unsigned numeric pattern).  The coordinate-based extractor
does not share this invariant: its cell parser preserves a minus sign, as
the counterexample shows. -/
theorem text_items_rate_value_nonneg :
    ∀ (text : String) (it : Item), it ∈ extract_line_items_from_text text →
      (∀ r, it.rate = some r → 0 ≤ r) ∧ (∀ v, it.value = some v → 0 ≤ v) :=
  fun _ _ h => (extract_line_items_invariant h).2

set_option maxRecDepth 100000 in
/-- Witness for C6 at an item with both rate and value present. -/
theorem text_items_rate_value_nonneg_witness :
    ({ description := "Widget thing", code := some ("AB123"),
       unit := some ("PCS"), qty := 2, rate := some (mkRat 21 2),
       value := some 21 } : Item) ∈
      extract_line_items_from_text
        ("Sr  Item Code  Description  Qty  Rate\n1  AB123  Widget thing  PCS  2  10.50  21.00") ∧
    (0 : ℚ) ≤ mkRat 21 2 ∧ (0 : ℚ) ≤ 21 := by
  refine ⟨by decide, ?_, ?_⟩
  · exact (text_items_rate_value_nonneg
      ("Sr  Item Code  Description  Qty  Rate\n1  AB123  Widget thing  PCS  2  10.50  21.00")
      ({ description := "Widget thing", code := some ("AB123"),
         unit := some ("PCS"), qty := 2, rate := some (mkRat 21 2),
         value := some 21 } : Item) (by decide)).1 (mkRat 21 2) rfl
  · exact (text_items_rate_value_nonneg
      ("Sr  Item Code  Description  Qty  Rate\n1  AB123  Widget thing  PCS  2  10.50  21.00")
      ({ description := "Widget thing", code := some ("AB123"),
         unit := some ("PCS"), qty := 2, rate := some (mkRat 21 2),
         value := some 21 } : Item) (by decide)).2 21 rfl

end PdfExtract
